import Mathlib

/-!
# Verification of the ESQ-1 patch codec (esq1.py)

Shallow embedding of the ESQ-1 patch data model, the per-group byte codecs,
and the outer SYSEX framing codec, together with proofs of the specified
properties.

Conventions of the embedding:
* Python integers are `Nat` (for unsigned wire/byte values) or `Int` (for the
  signed display values of modulation amounts).  Python has no overflow, so no
  implicit masking is added anywhere.
* Python booleans are embedded as `Nat` values `0`/`1`: in the source they are
  `False`/`True`, which Python freely mixes with `0`/`1` in arithmetic and in
  `==` comparisons (the deserializers store ints into Boolean parameters).
* Bit masks of the source are written with `/ 2^k` and `% 2^k`:
  `x & 0b00111111 = x % 64`, `x & 0b01111111 = x % 128`,
  `(x & 0b10000000) >> 7 = x / 128 % 2`, `(x & 0b11000000) >> 6 = x / 64 % 4`,
  `(x & 0b11110000) >> 4 = x / 16 % 16`, `x << k = x * 2^k`, `x >> k = x / 2^k`.
  These identities hold for all naturals.
* Code that raises (`ValueError`, failed `assert`, `StopIteration`) is embedded
  with `Option`: `none` is an error escaping to the caller.
* A Python iterator of bytes is embedded as a `List Nat`; a consumer returns
  the unconsumed remainder of the list.
-/

/-- Python's `bytearray.append` accepts only values in `0 ≤ b < 256` and raises
otherwise.  Every serializer routes each produced byte through this check. -/
def appendByte (b : Nat) : Option Nat :=
  if b < 256 then some b else none

/-- Run the `bytearray.append` check over a whole byte run: a serializer
fails iff any produced byte is out of byte range, otherwise it returns the
run unchanged. -/
def toBytearray : List Nat → Option (List Nat)
  | [] => some []
  | b :: bs =>
    match appendByte b, toBytearray bs with
    | some b', some bs' => some (b' :: bs')
    | _, _ => none

/-- The `Parameter.value` setter check, for `Nat`-valued parameters: reject a
value below the minimum or above the maximum, otherwise store it
(`esq1.py` lines 66-79). -/
def setValueN (minimum maximum v : Nat) : Option Nat :=
  if v < minimum then none
  else if v > maximum then none
  else some v

/-- The `Parameter.value` setter check for `Int`-valued parameters
(modulation amounts, range -63..63). -/
def setValueI (minimum maximum v : Int) : Option Int :=
  if v < minimum then none
  else if v > maximum then none
  else some v

/-- Function `display_to_pcb` (esq1.py lines 141-152): convert a display value
(-63..63) to the wire value stored in the bytearray (65..127, 0..63).
Raises (returns `none`) for inputs below -63 or above 63. -/
def display_to_pcb (value : Int) : Option Nat :=
  if value < -63 then none
  else if value < 0 then some (128 + value).toNat
  else if value ≤ 63 then some value.toNat
  else none

/-- Function `pcb_to_display` (esq1.py lines 155-168): convert a wire value
(0..63, 65..127) back to the display value (-63..63).  The source also
rejects negative inputs; the input here is a `Nat`, so that branch is
unreachable.  The code point 64 and values above 127 are rejected. -/
def pcb_to_display (value : Nat) : Option Int :=
  if value < 64 then some (value : Int)
  else if value = 64 then none
  else if value ≤ 127 then some (-128 + (value : Int))
  else none

/-- The `Parameter` class (esq1.py lines 20-97), restricted to what the
claims need: the four integer attributes.  `minimum` and `maximum` are fixed
at construction; `current` is the stored `_value`. -/
structure Parameter where
  minimum : Int
  maximum : Int
  default : Int
  current : Int
deriving DecidableEq

/-- The `value` property setter (esq1.py lines 66-79): reject values outside
`[minimum, maximum]` with a `ValueError` (embedded as `none`, in which case
no assignment to `_value` happens and the parameter is unchanged); otherwise
store the new value. -/
def Parameter.setValue (p : Parameter) (value : Int) : Option Parameter :=
  if value < p.minimum then none
  else if value > p.maximum then none
  else some { p with current := value }

/-! ## Sign codec lemmas -/

theorem display_to_pcb_neg {v : Int} (h1 : -63 ≤ v) (h2 : v < 0) :
    display_to_pcb v = some (128 + v).toNat := by
  unfold display_to_pcb
  rw [if_neg (by omega), if_pos h2]

theorem display_to_pcb_nonneg {v : Int} (h1 : 0 ≤ v) (h2 : v ≤ 63) :
    display_to_pcb v = some v.toNat := by
  unfold display_to_pcb
  rw [if_neg (by omega), if_neg (by omega), if_pos h2]

theorem pcb_to_display_low {w : Nat} (h : w < 64) :
    pcb_to_display w = some (w : Int) := by
  unfold pcb_to_display
  rw [if_pos h]

theorem pcb_to_display_high {w : Nat} (h1 : 65 ≤ w) (h2 : w ≤ 127) :
    pcb_to_display w = some (-128 + (w : Int)) := by
  unfold pcb_to_display
  rw [if_neg (by omega), if_neg (by omega), if_pos h2]

/-- Round trip display → wire → display, packaged with the bounds on the wire
value that the serializers rely on. -/
theorem display_pcb_roundtrip {v : Int} (h1 : -63 ≤ v) (h2 : v ≤ 63) :
    ∃ w : Nat, display_to_pcb v = some w ∧ w ≤ 127 ∧ w ≠ 64 ∧
      pcb_to_display w = some v := by
  by_cases hneg : v < 0
  · refine ⟨(128 + v).toNat, display_to_pcb_neg h1 hneg, by omega, by omega, ?_⟩
    rw [pcb_to_display_high (by omega) (by omega)]
    congr 1
    omega
  · refine ⟨v.toNat, display_to_pcb_nonneg (by omega) h2, by omega, by omega, ?_⟩
    rw [pcb_to_display_low (by omega)]
    congr 1
    omega

/-- C3, first direction with explicit equality for reuse. -/
theorem pcb_display_roundtrip {w : Nat} (h1 : w ≤ 127) (h2 : w ≠ 64) :
    ∃ v : Int, pcb_to_display w = some v ∧ display_to_pcb v = some w := by
  by_cases hlow : w < 64
  · refine ⟨(w : Int), pcb_to_display_low hlow, ?_⟩
    rw [display_to_pcb_nonneg (by omega) (by omega)]
    have h : ((w : Int)).toNat = w := by omega
    rw [h]
  · refine ⟨-128 + (w : Int), pcb_to_display_high (by omega) h1, ?_⟩
    rw [display_to_pcb_neg (by omega) (by omega)]
    have h : (128 + (-128 + (w : Int))).toNat = w := by omega
    rw [h]

/-- C3: the sign-codec functions are mutual inverses over their valid
domains: for `-63 ≤ v ≤ 63`, `pcb_to_display (display_to_pcb v) = v`; for
`0 ≤ w ≤ 127`, `w ≠ 64`, `display_to_pcb (pcb_to_display w) = w`. -/
theorem sign_codec_mutual_inverses :
    (∀ v : Int, -63 ≤ v → v ≤ 63 →
      ∃ w : Nat, display_to_pcb v = some w ∧ pcb_to_display w = some v) ∧
    (∀ w : Nat, w ≤ 127 → w ≠ 64 →
      ∃ v : Int, pcb_to_display w = some v ∧ display_to_pcb v = some w) := by
  constructor
  · intro v h1 h2
    obtain ⟨w, hw, _, _, hback⟩ := display_pcb_roundtrip h1 h2
    exact ⟨w, hw, hback⟩
  · intro w h1 h2
    exact pcb_display_roundtrip h1 h2

/-- Witness for C3 at `v = -5` and `w = 100`. -/
theorem sign_codec_mutual_inverses_witness :
    (∃ w : Nat, display_to_pcb (-5) = some w ∧ pcb_to_display w = some (-5)) ∧
    (∃ v : Int, pcb_to_display 100 = some v ∧ display_to_pcb v = some 100) :=
  ⟨sign_codec_mutual_inverses.1 (-5) (by decide) (by decide),
   sign_codec_mutual_inverses.2 100 (by decide) (by decide)⟩

/-- C4: the exact branch behaviour of the two sign-codec functions:
`display_to_pcb` maps `-63 ≤ v < 0` to `128 + v`, keeps `0 ≤ v ≤ 63`
unchanged, and fails outside `[-63, 63]`; `pcb_to_display` keeps
`0 ≤ w < 64` unchanged, maps `65 ≤ w ≤ 127` to `w - 128`, and fails at the
reserved code point `w = 64` (a hard decode error, not a default). -/
theorem sign_codec_branches :
    (∀ v : Int, -63 ≤ v → v < 0 → display_to_pcb v = some (128 + v).toNat) ∧
    (∀ v : Int, 0 ≤ v → v ≤ 63 → display_to_pcb v = some v.toNat) ∧
    (∀ v : Int, v < -63 → display_to_pcb v = none) ∧
    (∀ v : Int, v > 63 → display_to_pcb v = none) ∧
    (∀ w : Nat, w < 64 → pcb_to_display w = some (w : Int)) ∧
    (∀ w : Nat, 65 ≤ w → w ≤ 127 → pcb_to_display w = some ((w : Int) - 128)) ∧
    pcb_to_display 64 = none := by
  refine ⟨fun v h1 h2 => display_to_pcb_neg h1 h2,
    fun v h1 h2 => display_to_pcb_nonneg h1 h2,
    fun v h => ?_, fun v h => ?_,
    fun w h => pcb_to_display_low h,
    fun w h1 h2 => ?_, ?_⟩
  · unfold display_to_pcb
    rw [if_pos h]
  · unfold display_to_pcb
    rw [if_neg (by omega), if_neg (by omega)]
    exact if_neg (by omega)
  · rw [pcb_to_display_high h1 h2]
    have h : -128 + (w : Int) = (w : Int) - 128 := by omega
    rw [h]
  · rfl

/-- Witness for C4: each hypothesis-bearing branch applied at a concrete
input. -/
theorem sign_codec_branches_witness :
    display_to_pcb (-63) = some (128 + (-63) : Int).toNat ∧
    display_to_pcb 63 = some (63 : Int).toNat ∧
    display_to_pcb (-64) = none ∧
    display_to_pcb 64 = none ∧
    pcb_to_display 0 = some (0 : Int) ∧
    pcb_to_display 65 = some ((65 : Int) - 128) ∧
    pcb_to_display 64 = none :=
  ⟨sign_codec_branches.1 (-63) (by decide) (by decide),
   sign_codec_branches.2.1 63 (by decide) (by decide),
   sign_codec_branches.2.2.1 (-64) (by decide),
   sign_codec_branches.2.2.2.1 64 (by decide),
   sign_codec_branches.2.2.2.2.1 0 (by decide),
   sign_codec_branches.2.2.2.2.2.1 65 (by decide) (by decide),
   sign_codec_branches.2.2.2.2.2.2⟩

/-- C9: the `Parameter.value` setter accepts exactly the values in
`[minimum, maximum]`, storing the value unchanged (no clamping); an
out-of-range assignment fails with a `ValueError` and, since the assignment
to `_value` never executes, the parameter keeps its previous state (`none`
carries no updated parameter). -/
theorem parameter_setValue_spec (p : Parameter) (v : Int) :
    (p.minimum ≤ v → v ≤ p.maximum →
      p.setValue v = some { p with current := v }) ∧
    ((v < p.minimum ∨ v > p.maximum) → p.setValue v = none) := by
  constructor
  · intro h1 h2
    unfold Parameter.setValue
    rw [if_neg (by omega), if_neg (by omega)]
  · intro h
    unfold Parameter.setValue
    rcases h with h | h
    · rw [if_pos h]
    · by_cases h2 : v < p.minimum
      · rw [if_pos h2]
      · rw [if_neg h2, if_pos h]

/-- Witness for C9 at a concrete parameter with range `[0, 63]`. -/
theorem parameter_setValue_spec_witness :
    (Parameter.setValue ⟨0, 63, 0, 5⟩ 17 = some ⟨0, 63, 0, 17⟩) ∧
    (Parameter.setValue ⟨0, 63, 0, 5⟩ 64 = none) :=
  ⟨(parameter_setValue_spec ⟨0, 63, 0, 5⟩ 17).1 (by decide) (by decide),
   (parameter_setValue_spec ⟨0, 63, 0, 5⟩ 64).2 (Or.inr (by decide))⟩

/-! ## Envelope (esq1.py lines 206-258) -/

/-- One envelope: 3 signed levels, 4 times, and three velocity/keyboard
scaling parameters (`Envelope.__init__`, lines 225-230).  The fixed-length
Python lists `levels` and `times` are unrolled into numbered fields. -/
structure Envelope where
  levels0 : Int
  levels1 : Int
  levels2 : Int
  times0 : Nat
  times1 : Nat
  times2 : Nat
  times3 : Nat
  velocity_level : Nat
  velocity_attack_control : Nat
  keyboard_decay_scaling : Nat
deriving DecidableEq

/-- The ranges enforced by the `Parameter` instances of `Envelope.__init__`:
levels are `ModulationAmount`s (-63..63), everything else is `Parameter(0, 63)`. -/
def Envelope.InRange (e : Envelope) : Prop :=
  -63 ≤ e.levels0 ∧ e.levels0 ≤ 63 ∧
  -63 ≤ e.levels1 ∧ e.levels1 ≤ 63 ∧
  -63 ≤ e.levels2 ∧ e.levels2 ≤ 63 ∧
  e.times0 ≤ 63 ∧ e.times1 ≤ 63 ∧ e.times2 ≤ 63 ∧ e.times3 ≤ 63 ∧
  e.velocity_level ≤ 63 ∧ e.velocity_attack_control ≤ 63 ∧
  e.keyboard_decay_scaling ≤ 63

instance (e : Envelope) : Decidable e.InRange := by
  unfold Envelope.InRange
  infer_instance

/-- Method `Envelope.serialize` (lines 232-246): levels pass through
`display_to_pcb` and are shifted left once; times are raw bytes;
`velocity_level` is shifted left twice; 10 bytes total. -/
def Envelope.serialize (e : Envelope) : Option (List Nat) :=
  match display_to_pcb e.levels0, display_to_pcb e.levels1,
      display_to_pcb e.levels2 with
  | some p0, some p1, some p2 =>
    toBytearray [p0 * 2, p1 * 2, p2 * 2, e.times0, e.times1, e.times2,
      e.times3, e.velocity_level * 4, e.velocity_attack_control,
      e.keyboard_decay_scaling]
  | _, _, _ => none

/-- Field extraction of `Envelope.deserialize` (lines 248-258) from its 10
bytes: levels are shifted right once and pass through `pcb_to_display`;
`velocity_level` is shifted right twice; every field assignment goes through
the owning parameter's range check (the `Parameter.value` setter, embedded as
`setValueI`/`setValueN`). -/
def Envelope.fromBytes (b0 b1 b2 b3 b4 b5 b6 b7 b8 b9 : Nat) :
    Option Envelope :=
  match pcb_to_display (b0 / 2) with
  | none => none
  | some d0 =>
  match setValueI (-63) 63 d0 with
  | none => none
  | some l0 =>
  match pcb_to_display (b1 / 2) with
  | none => none
  | some d1 =>
  match setValueI (-63) 63 d1 with
  | none => none
  | some l1 =>
  match pcb_to_display (b2 / 2) with
  | none => none
  | some d2 =>
  match setValueI (-63) 63 d2 with
  | none => none
  | some l2 =>
  match setValueN 0 63 b3 with
  | none => none
  | some t0 =>
  match setValueN 0 63 b4 with
  | none => none
  | some t1 =>
  match setValueN 0 63 b5 with
  | none => none
  | some t2 =>
  match setValueN 0 63 b6 with
  | none => none
  | some t3 =>
  match setValueN 0 63 (b7 / 4) with
  | none => none
  | some vl =>
  match setValueN 0 63 b8 with
  | none => none
  | some vac =>
  match setValueN 0 63 b9 with
  | none => none
  | some kds =>
  some ⟨l0, l1, l2, t0, t1, t2, t3, vl, vac, kds⟩

/-- Method `Envelope.deserialize`: draw 10 bytes from the source (a failing `next`
is a `StopIteration` error) and extract the fields; the unconsumed remainder
of the source is returned alongside. -/
def Envelope.deserialize (bytes : List Nat) : Option (Envelope × List Nat) :=
  match bytes with
  | b0 :: b1 :: b2 :: b3 :: b4 :: b5 :: b6 :: b7 :: b8 :: b9 :: rest =>
    (Envelope.fromBytes b0 b1 b2 b3 b4 b5 b6 b7 b8 b9).map (fun e => (e, rest))
  | _ => none

theorem setValueN_pass {minimum maximum v : Nat} (h1 : minimum ≤ v)
    (h2 : v ≤ maximum) : setValueN minimum maximum v = some v := by
  unfold setValueN
  rw [if_neg (by omega), if_neg (by omega)]

theorem setValueI_pass {minimum maximum v : Int} (h1 : minimum ≤ v)
    (h2 : v ≤ maximum) : setValueI minimum maximum v = some v := by
  unfold setValueI
  rw [if_neg (by omega), if_neg (by omega)]

theorem appendByte_pass {b : Nat} (h : b < 256) : appendByte b = some b := by
  unfold appendByte
  rw [if_pos h]

theorem toBytearray_pass {bs : List Nat} (h : ∀ b ∈ bs, b < 256) :
    toBytearray bs = some bs := by
  induction bs with
  | nil => rfl
  | cons b bs ih =>
    unfold toBytearray
    rw [appendByte_pass (h b (by simp)), ih (fun x hx => h x (by simp [hx]))]

/-- An in-range envelope serializes to 10 bytes which deserialize back to the
same envelope, consuming exactly those 10 bytes. -/
theorem envelope_roundtrip (e : Envelope) (h : e.InRange) :
    ∃ bs : List Nat, e.serialize = some bs ∧ bs.length = 10 ∧
      (∀ b ∈ bs, b < 256) ∧
      ∀ rest : List Nat, Envelope.deserialize (bs ++ rest) = some (e, rest) := by
  obtain ⟨h0a, h0b, h1a, h1b, h2a, h2b, ht0, ht1, ht2, ht3, hvl, hvac, hkds⟩ := h
  obtain ⟨w0, hw0, hw0le, hw0ne, hw0back⟩ := display_pcb_roundtrip h0a h0b
  obtain ⟨w1, hw1, hw1le, hw1ne, hw1back⟩ := display_pcb_roundtrip h1a h1b
  obtain ⟨w2, hw2, hw2le, hw2ne, hw2back⟩ := display_pcb_roundtrip h2a h2b
  refine ⟨[w0 * 2, w1 * 2, w2 * 2, e.times0, e.times1, e.times2, e.times3,
    e.velocity_level * 4, e.velocity_attack_control, e.keyboard_decay_scaling],
    ?_, rfl, ?_, ?_⟩
  · simp only [Envelope.serialize, hw0, hw1, hw2]
    exact toBytearray_pass (by intro b hb; fin_cases hb <;> omega)
  · intro b hb
    fin_cases hb <;> omega
  · intro rest
    have d0 : w0 * 2 / 2 = w0 := by omega
    have d1 : w1 * 2 / 2 = w1 := by omega
    have d2 : w2 * 2 / 2 = w2 := by omega
    have d7 : e.velocity_level * 4 / 4 = e.velocity_level := by omega
    have s0 : setValueI (-63) 63 e.levels0 = some e.levels0 :=
      setValueI_pass h0a h0b
    have s1 : setValueI (-63) 63 e.levels1 = some e.levels1 :=
      setValueI_pass h1a h1b
    have s2 : setValueI (-63) 63 e.levels2 = some e.levels2 :=
      setValueI_pass h2a h2b
    have n0 : setValueN 0 63 e.times0 = some e.times0 :=
      setValueN_pass (Nat.zero_le _) ht0
    have n1 : setValueN 0 63 e.times1 = some e.times1 :=
      setValueN_pass (Nat.zero_le _) ht1
    have n2 : setValueN 0 63 e.times2 = some e.times2 :=
      setValueN_pass (Nat.zero_le _) ht2
    have n3 : setValueN 0 63 e.times3 = some e.times3 :=
      setValueN_pass (Nat.zero_le _) ht3
    have n4 : setValueN 0 63 e.velocity_level = some e.velocity_level :=
      setValueN_pass (Nat.zero_le _) hvl
    have n5 : setValueN 0 63 e.velocity_attack_control =
        some e.velocity_attack_control := setValueN_pass (Nat.zero_le _) hvac
    have n6 : setValueN 0 63 e.keyboard_decay_scaling =
        some e.keyboard_decay_scaling := setValueN_pass (Nat.zero_le _) hkds
    simp only [Envelope.deserialize, Envelope.fromBytes, List.cons_append,
      List.nil_append, d0, d1, d2, d7, hw0back, hw1back, hw2back, s0, s1, s2,
      n0, n1, n2, n3, n4, n5, n6, Option.map_some']

/-- A successful `Envelope.deserialize` consumes exactly 10 bytes. -/
theorem envelope_consumes {bytes : List Nat}
    {x : Envelope × List Nat} (h : Envelope.deserialize bytes = some x) :
    x.2 = bytes.drop 10 := by
  rcases bytes with _ | ⟨b0, _ | ⟨b1, _ | ⟨b2, _ | ⟨b3, _ | ⟨b4, _ | ⟨b5,
    _ | ⟨b6, _ | ⟨b7, _ | ⟨b8, _ | ⟨b9, rest⟩⟩⟩⟩⟩⟩⟩⟩⟩⟩ <;>
    simp only [Envelope.deserialize, Option.map_eq_some'] at h
  iterate 10 exact absurd h (by simp)
  obtain ⟨e, _, hx⟩ := h
  rw [← hx]
  rfl

/-! ## LFO (esq1.py lines 261-342) -/

/-- One LFO (`LFO.__init__`, lines 292-299).  `reset` and `humanize` are
Booleans (0/1), `waveform` ranges over TRIANGLE=0 .. NOISE=3, and
`modulation_source` over the 16 modulation sources (OFF = 15). -/
structure LFO where
  levels0 : Nat
  levels1 : Nat
  frequency : Nat
  reset : Nat
  humanize : Nat
  waveform : Nat
  delay : Nat
  modulation_source : Nat
deriving DecidableEq

/-- The ranges enforced by the parameters of `LFO.__init__`. -/
def LFO.InRange (l : LFO) : Prop :=
  l.levels0 ≤ 63 ∧ l.levels1 ≤ 63 ∧ l.frequency ≤ 63 ∧ l.reset ≤ 1 ∧
  l.humanize ≤ 1 ∧ l.waveform ≤ 3 ∧ l.delay ≤ 63 ∧ l.modulation_source ≤ 15

instance (l : LFO) : Decidable l.InRange := by
  unfold LFO.InRange
  infer_instance

/-- Method `LFO.serialize` (lines 301-316).  In the source:
`waveform = (value & 0b11) << 6`, `modulation_source_0 = (value & 0b11) << 6`,
`modulation_source_1 = (value & 0b1100) << 4`, `reset = (value & 1) << 7`,
`humanize = (value & 1) << 6`; the four bytes are
`waveform + frequency`, `modulation_source_1 + levels[0]`,
`modulation_source_0 + levels[1]`, `reset + humanize + delay`. -/
def LFO.serialize (l : LFO) : Option (List Nat) :=
  toBytearray [l.waveform % 4 * 64 + l.frequency,
    l.modulation_source / 4 % 4 * 64 + l.levels0,
    l.modulation_source % 4 * 64 + l.levels1,
    l.reset % 2 * 128 + l.humanize % 2 * 64 + l.delay]

/-- Field extraction of `LFO.deserialize` (lines 318-342): the two halves of
the 4-bit modulation source are taken from the top 2 bits of bytes 1 and 2
and reassembled as `modulation_source_1 + (modulation_source_0 << 2)`. -/
def LFO.fromBytes (b0 b1 b2 b3 : Nat) : Option LFO :=
  match setValueN 0 3 (b0 / 64 % 4) with
  | none => none
  | some waveform =>
  match setValueN 0 63 (b0 % 64) with
  | none => none
  | some frequency =>
  match setValueN 0 63 (b1 % 64) with
  | none => none
  | some levels0 =>
  match setValueN 0 63 (b2 % 64) with
  | none => none
  | some levels1 =>
  match setValueN 0 15 (b2 / 64 % 4 + b1 / 64 % 4 * 4) with
  | none => none
  | some modulation_source =>
  match setValueN 0 1 (b3 / 128 % 2) with
  | none => none
  | some reset =>
  match setValueN 0 1 (b3 / 64 % 2) with
  | none => none
  | some humanize =>
  match setValueN 0 63 (b3 % 64) with
  | none => none
  | some delay =>
  some ⟨levels0, levels1, frequency, reset, humanize, waveform, delay,
    modulation_source⟩

/-- Method `LFO.deserialize`: draw 4 bytes from the source and extract the fields. -/
def LFO.deserialize (bytes : List Nat) : Option (LFO × List Nat) :=
  match bytes with
  | b0 :: b1 :: b2 :: b3 :: rest =>
    (LFO.fromBytes b0 b1 b2 b3).map (fun l => (l, rest))
  | _ => none

/-- An in-range LFO serializes to 4 bytes which deserialize back to the same
LFO, consuming exactly those 4 bytes. -/
theorem lfo_roundtrip (l : LFO) (h : l.InRange) :
    ∃ bs : List Nat, l.serialize = some bs ∧ bs.length = 4 ∧
      (∀ b ∈ bs, b < 256) ∧
      ∀ rest : List Nat, LFO.deserialize (bs ++ rest) = some (l, rest) := by
  obtain ⟨hl0, hl1, hf, hr, hh, hw, hd, hm⟩ := h
  refine ⟨[l.waveform % 4 * 64 + l.frequency,
    l.modulation_source / 4 % 4 * 64 + l.levels0,
    l.modulation_source % 4 * 64 + l.levels1,
    l.reset % 2 * 128 + l.humanize % 2 * 64 + l.delay], ?_, rfl, ?_, ?_⟩
  · exact toBytearray_pass (by intro b hb; fin_cases hb <;> omega)
  · intro b hb
    fin_cases hb <;> omega
  · intro rest
    have e0a : (l.waveform % 4 * 64 + l.frequency) / 64 % 4 = l.waveform := by
      omega
    have e0b : (l.waveform % 4 * 64 + l.frequency) % 64 = l.frequency := by
      omega
    have e1b : (l.modulation_source / 4 % 4 * 64 + l.levels0) % 64 =
        l.levels0 := by omega
    have e2b : (l.modulation_source % 4 * 64 + l.levels1) % 64 =
        l.levels1 := by omega
    have em : (l.modulation_source % 4 * 64 + l.levels1) / 64 % 4 +
        (l.modulation_source / 4 % 4 * 64 + l.levels0) / 64 % 4 * 4 =
        l.modulation_source := by omega
    have e3a : (l.reset % 2 * 128 + l.humanize % 2 * 64 + l.delay) / 128 % 2 =
        l.reset := by omega
    have e3b : (l.reset % 2 * 128 + l.humanize % 2 * 64 + l.delay) / 64 % 2 =
        l.humanize := by omega
    have e3c : (l.reset % 2 * 128 + l.humanize % 2 * 64 + l.delay) % 64 =
        l.delay := by omega
    have sw : setValueN 0 3 l.waveform = some l.waveform :=
      setValueN_pass (Nat.zero_le _) hw
    have sf : setValueN 0 63 l.frequency = some l.frequency :=
      setValueN_pass (Nat.zero_le _) hf
    have sl0 : setValueN 0 63 l.levels0 = some l.levels0 :=
      setValueN_pass (Nat.zero_le _) hl0
    have sl1 : setValueN 0 63 l.levels1 = some l.levels1 :=
      setValueN_pass (Nat.zero_le _) hl1
    have sm : setValueN 0 15 l.modulation_source = some l.modulation_source :=
      setValueN_pass (Nat.zero_le _) hm
    have sr : setValueN 0 1 l.reset = some l.reset :=
      setValueN_pass (Nat.zero_le _) hr
    have sh : setValueN 0 1 l.humanize = some l.humanize :=
      setValueN_pass (Nat.zero_le _) hh
    have sd : setValueN 0 63 l.delay = some l.delay :=
      setValueN_pass (Nat.zero_le _) hd
    simp only [LFO.deserialize, LFO.fromBytes, List.cons_append,
      List.nil_append, e0a, e0b, e1b, e2b, em, e3a, e3b, e3c,
      sw, sf, sl0, sl1, sm, sr, sh, sd, Option.map_some']

/-- A successful `LFO.deserialize` consumes exactly 4 bytes. -/
theorem lfo_consumes {bytes : List Nat} {x : LFO × List Nat}
    (h : LFO.deserialize bytes = some x) : x.2 = bytes.drop 4 := by
  rcases bytes with _ | ⟨b0, _ | ⟨b1, _ | ⟨b2, _ | ⟨b3, rest⟩⟩⟩⟩ <;>
    simp only [LFO.deserialize, Option.map_eq_some'] at h
  iterate 4 exact absurd h (by simp)
  obtain ⟨l, _, hx⟩ := h
  rw [← hx]
  rfl

/-! ## Oscillator (esq1.py lines 345-500) -/

/-- One oscillator (`Oscillator.__init__`, lines 409-423).  The two-element
Python lists of modulation sources/amounts are unrolled into numbered
fields; waveform ranges over SAW=0 .. OCT_5=32. -/
structure Oscillator where
  semitone : Nat
  fine_tune : Nat
  frequency_modulation_sources0 : Nat
  frequency_modulation_sources1 : Nat
  frequency_modulation_amounts0 : Int
  frequency_modulation_amounts1 : Int
  waveform : Nat
  dca_enable : Nat
  dca_level : Nat
  dca_modulation_sources0 : Nat
  dca_modulation_sources1 : Nat
  dca_modulation_amounts0 : Int
  dca_modulation_amounts1 : Int
deriving DecidableEq

/-- The ranges enforced by the parameters of `Oscillator.__init__`. -/
def Oscillator.InRange (o : Oscillator) : Prop :=
  o.semitone ≤ 96 ∧ o.fine_tune ≤ 31 ∧
  o.frequency_modulation_sources0 ≤ 15 ∧
  o.frequency_modulation_sources1 ≤ 15 ∧
  -63 ≤ o.frequency_modulation_amounts0 ∧
  o.frequency_modulation_amounts0 ≤ 63 ∧
  -63 ≤ o.frequency_modulation_amounts1 ∧
  o.frequency_modulation_amounts1 ≤ 63 ∧
  o.waveform ≤ 32 ∧ o.dca_enable ≤ 1 ∧ o.dca_level ≤ 63 ∧
  o.dca_modulation_sources0 ≤ 15 ∧ o.dca_modulation_sources1 ≤ 15 ∧
  -63 ≤ o.dca_modulation_amounts0 ∧ o.dca_modulation_amounts0 ≤ 63 ∧
  -63 ≤ o.dca_modulation_amounts1 ∧ o.dca_modulation_amounts1 ≤ 63

instance (o : Oscillator) : Decidable o.InRange := by
  unfold Oscillator.InRange
  infer_instance

/-- Method `Oscillator.serialize` (lines 429-467).  In the source:
`fine_tune = value << 3`; the two modulation sources share a byte as
`(sources[1] << 4) + sources[0]`; each modulation amount passes through
`display_to_pcb` and is shifted left once;
`dca_enable = (value & 1) << 7` shares a byte with `dca_level << 1`. -/
def Oscillator.serialize (o : Oscillator) : Option (List Nat) :=
  match display_to_pcb o.frequency_modulation_amounts0,
      display_to_pcb o.frequency_modulation_amounts1,
      display_to_pcb o.dca_modulation_amounts0,
      display_to_pcb o.dca_modulation_amounts1 with
  | some fma0, some fma1, some dma0, some dma1 =>
    toBytearray [o.semitone, o.fine_tune * 8,
      o.frequency_modulation_sources1 * 16 + o.frequency_modulation_sources0,
      fma0 * 2, fma1 * 2, o.waveform,
      o.dca_enable % 2 * 128 + o.dca_level * 2,
      o.dca_modulation_sources1 * 16 + o.dca_modulation_sources0,
      dma0 * 2, dma1 * 2]
  | _, _, _, _ => none

/-- Field extraction of `Oscillator.deserialize` (lines 469-500). -/
def Oscillator.fromBytes (b0 b1 b2 b3 b4 b5 b6 b7 b8 b9 : Nat) :
    Option Oscillator :=
  match setValueN 0 96 b0 with
  | none => none
  | some semitone =>
  match setValueN 0 31 (b1 / 8) with
  | none => none
  | some fine_tune =>
  match setValueN 0 15 (b2 / 16) with
  | none => none
  | some fms1 =>
  match setValueN 0 15 (b2 % 16) with
  | none => none
  | some fms0 =>
  match pcb_to_display (b3 / 2) with
  | none => none
  | some dfa0 =>
  match setValueI (-63) 63 dfa0 with
  | none => none
  | some fma0 =>
  match pcb_to_display (b4 / 2) with
  | none => none
  | some dfa1 =>
  match setValueI (-63) 63 dfa1 with
  | none => none
  | some fma1 =>
  match setValueN 0 32 b5 with
  | none => none
  | some waveform =>
  match setValueN 0 1 (b6 / 128 % 2) with
  | none => none
  | some dca_enable =>
  match setValueN 0 63 (b6 % 128 / 2) with
  | none => none
  | some dca_level =>
  match setValueN 0 15 (b7 / 16) with
  | none => none
  | some dms1 =>
  match setValueN 0 15 (b7 % 16) with
  | none => none
  | some dms0 =>
  match pcb_to_display (b8 / 2) with
  | none => none
  | some dda0 =>
  match setValueI (-63) 63 dda0 with
  | none => none
  | some dma0 =>
  match pcb_to_display (b9 / 2) with
  | none => none
  | some dda1 =>
  match setValueI (-63) 63 dda1 with
  | none => none
  | some dma1 =>
  some ⟨semitone, fine_tune, fms0, fms1, fma0, fma1, waveform, dca_enable,
    dca_level, dms0, dms1, dma0, dma1⟩

/-- Method `Oscillator.deserialize`: draw 10 bytes from the source and extract the
fields. -/
def Oscillator.deserialize (bytes : List Nat) :
    Option (Oscillator × List Nat) :=
  match bytes with
  | b0 :: b1 :: b2 :: b3 :: b4 :: b5 :: b6 :: b7 :: b8 :: b9 :: rest =>
    (Oscillator.fromBytes b0 b1 b2 b3 b4 b5 b6 b7 b8 b9).map
      (fun o => (o, rest))
  | _ => none

/-- An in-range oscillator serializes to 10 bytes which deserialize back to
the same oscillator, consuming exactly those 10 bytes. -/
theorem oscillator_roundtrip (o : Oscillator) (h : o.InRange) :
    ∃ bs : List Nat, o.serialize = some bs ∧ bs.length = 10 ∧
      (∀ b ∈ bs, b < 256) ∧
      ∀ rest : List Nat,
        Oscillator.deserialize (bs ++ rest) = some (o, rest) := by
  obtain ⟨hst, hft, hfs0, hfs1, hfa0a, hfa0b, hfa1a, hfa1b, hwf, hde, hdl,
    hds0, hds1, hda0a, hda0b, hda1a, hda1b⟩ := h
  obtain ⟨w0, hw0, hw0le, hw0ne, hw0back⟩ := display_pcb_roundtrip hfa0a hfa0b
  obtain ⟨w1, hw1, hw1le, hw1ne, hw1back⟩ := display_pcb_roundtrip hfa1a hfa1b
  obtain ⟨w2, hw2, hw2le, hw2ne, hw2back⟩ := display_pcb_roundtrip hda0a hda0b
  obtain ⟨w3, hw3, hw3le, hw3ne, hw3back⟩ := display_pcb_roundtrip hda1a hda1b
  refine ⟨[o.semitone, o.fine_tune * 8,
    o.frequency_modulation_sources1 * 16 + o.frequency_modulation_sources0,
    w0 * 2, w1 * 2, o.waveform, o.dca_enable % 2 * 128 + o.dca_level * 2,
    o.dca_modulation_sources1 * 16 + o.dca_modulation_sources0,
    w2 * 2, w3 * 2], ?_, rfl, ?_, ?_⟩
  · simp only [Oscillator.serialize, hw0, hw1, hw2, hw3]
    exact toBytearray_pass (by intro b hb; fin_cases hb <;> omega)
  · intro b hb
    fin_cases hb <;> omega
  · intro rest
    have e1 : o.fine_tune * 8 / 8 = o.fine_tune := by omega
    have e2a : (o.frequency_modulation_sources1 * 16 +
        o.frequency_modulation_sources0) / 16 =
        o.frequency_modulation_sources1 := by omega
    have e2b : (o.frequency_modulation_sources1 * 16 +
        o.frequency_modulation_sources0) % 16 =
        o.frequency_modulation_sources0 := by omega
    have e3 : w0 * 2 / 2 = w0 := by omega
    have e4 : w1 * 2 / 2 = w1 := by omega
    have e6a : (o.dca_enable % 2 * 128 + o.dca_level * 2) / 128 % 2 =
        o.dca_enable := by omega
    have e6b : (o.dca_enable % 2 * 128 + o.dca_level * 2) % 128 / 2 =
        o.dca_level := by omega
    have e7a : (o.dca_modulation_sources1 * 16 + o.dca_modulation_sources0) /
        16 = o.dca_modulation_sources1 := by omega
    have e7b : (o.dca_modulation_sources1 * 16 + o.dca_modulation_sources0) %
        16 = o.dca_modulation_sources0 := by omega
    have e8 : w2 * 2 / 2 = w2 := by omega
    have e9 : w3 * 2 / 2 = w3 := by omega
    have s0 : setValueN 0 96 o.semitone = some o.semitone :=
      setValueN_pass (Nat.zero_le _) hst
    have s1 : setValueN 0 31 o.fine_tune = some o.fine_tune :=
      setValueN_pass (Nat.zero_le _) hft
    have s2a : setValueN 0 15 o.frequency_modulation_sources1 =
        some o.frequency_modulation_sources1 :=
      setValueN_pass (Nat.zero_le _) hfs1
    have s2b : setValueN 0 15 o.frequency_modulation_sources0 =
        some o.frequency_modulation_sources0 :=
      setValueN_pass (Nat.zero_le _) hfs0
    have s3 : setValueI (-63) 63 o.frequency_modulation_amounts0 =
        some o.frequency_modulation_amounts0 := setValueI_pass hfa0a hfa0b
    have s4 : setValueI (-63) 63 o.frequency_modulation_amounts1 =
        some o.frequency_modulation_amounts1 := setValueI_pass hfa1a hfa1b
    have s5 : setValueN 0 32 o.waveform = some o.waveform :=
      setValueN_pass (Nat.zero_le _) hwf
    have s6a : setValueN 0 1 o.dca_enable = some o.dca_enable :=
      setValueN_pass (Nat.zero_le _) hde
    have s6b : setValueN 0 63 o.dca_level = some o.dca_level :=
      setValueN_pass (Nat.zero_le _) hdl
    have s7a : setValueN 0 15 o.dca_modulation_sources1 =
        some o.dca_modulation_sources1 := setValueN_pass (Nat.zero_le _) hds1
    have s7b : setValueN 0 15 o.dca_modulation_sources0 =
        some o.dca_modulation_sources0 := setValueN_pass (Nat.zero_le _) hds0
    have s8 : setValueI (-63) 63 o.dca_modulation_amounts0 =
        some o.dca_modulation_amounts0 := setValueI_pass hda0a hda0b
    have s9 : setValueI (-63) 63 o.dca_modulation_amounts1 =
        some o.dca_modulation_amounts1 := setValueI_pass hda1a hda1b
    simp only [Oscillator.deserialize, Oscillator.fromBytes,
      List.cons_append, List.nil_append, e1, e2a, e2b, e3, e4, e6a, e6b,
      e7a, e7b, e8, e9, hw0back, hw1back, hw2back, hw3back, s0, s1, s2a,
      s2b, s3, s4, s5, s6a, s6b, s7a, s7b, s8, s9, Option.map_some']

/-- A successful `Oscillator.deserialize` consumes exactly 10 bytes. -/
theorem oscillator_consumes {bytes : List Nat}
    {x : Oscillator × List Nat} (h : Oscillator.deserialize bytes = some x) :
    x.2 = bytes.drop 10 := by
  rcases bytes with _ | ⟨b0, _ | ⟨b1, _ | ⟨b2, _ | ⟨b3, _ | ⟨b4, _ | ⟨b5,
    _ | ⟨b6, _ | ⟨b7, _ | ⟨b8, _ | ⟨b9, rest⟩⟩⟩⟩⟩⟩⟩⟩⟩⟩ <;>
    simp only [Oscillator.deserialize, Option.map_eq_some'] at h
  iterate 10 exact absurd h (by simp)
  obtain ⟨o, _, hx⟩ := h
  rw [← hx]
  rfl

/-! ## Miscellaneous (esq1.py lines 503-715) -/

/-- The miscellaneous section (`Miscellaneous.__init__`, lines 564-594).
`filter_modulation_amount` keeps the source's singular field name; the
two-element Python lists are unrolled into numbered fields. -/
structure Miscellaneous where
  sync : Nat
  am : Nat
  mono : Nat
  glide : Nat
  reset_voice : Nat
  reset_envelope : Nat
  reset_oscillator : Nat
  cycle : Nat
  pan : Nat
  pan_modulation_source : Nat
  pan_modulation_amount : Int
  dca4_modulation_amount : Nat
  frequency : Nat
  resonance : Nat
  filter_modulation_sources0 : Nat
  filter_modulation_sources1 : Nat
  filter_modulation_amount0 : Int
  filter_modulation_amount1 : Int
  filter_keyboard_tracking : Nat
  split_direction : Nat
  split_point : Nat
  layer_flag : Nat
  layer_program : Nat
  split_flag : Nat
  split_program : Nat
  split_layer_flag : Nat
  split_layer_program : Nat
deriving DecidableEq

/-- The ranges enforced by the parameters of `Miscellaneous.__init__`. -/
def Miscellaneous.InRange (m : Miscellaneous) : Prop :=
  m.sync ≤ 1 ∧ m.am ≤ 1 ∧ m.mono ≤ 1 ∧ m.glide ≤ 63 ∧
  m.reset_voice ≤ 1 ∧ m.reset_envelope ≤ 1 ∧ m.reset_oscillator ≤ 1 ∧
  m.cycle ≤ 1 ∧ m.pan ≤ 15 ∧ m.pan_modulation_source ≤ 15 ∧
  -63 ≤ m.pan_modulation_amount ∧ m.pan_modulation_amount ≤ 63 ∧
  m.dca4_modulation_amount ≤ 63 ∧ m.frequency ≤ 127 ∧ m.resonance ≤ 31 ∧
  m.filter_modulation_sources0 ≤ 15 ∧ m.filter_modulation_sources1 ≤ 15 ∧
  -63 ≤ m.filter_modulation_amount0 ∧ m.filter_modulation_amount0 ≤ 63 ∧
  -63 ≤ m.filter_modulation_amount1 ∧ m.filter_modulation_amount1 ≤ 63 ∧
  m.filter_keyboard_tracking ≤ 63 ∧ m.split_direction ≤ 1 ∧
  m.split_point ≤ 108 ∧ m.layer_flag ≤ 1 ∧ m.layer_program ≤ 39 ∧
  m.split_flag ≤ 1 ∧ m.split_program ≤ 39 ∧ m.split_layer_flag ≤ 1 ∧
  m.split_layer_program ≤ 39

instance (m : Miscellaneous) : Decidable m.InRange := by
  unfold Miscellaneous.InRange
  infer_instance

/-- Method `Miscellaneous.serialize` (lines 596-644).  Single-bit flags are
`(value & 1) << 7` sharing a byte with a full-width or shifted field;
`filter_modulation_sources` pack as `sources[0] + (sources[1] << 4)`;
`pan << 4` shares a byte with `pan_modulation_source`; the three signed
amounts pass through `display_to_pcb` unshifted. -/
def Miscellaneous.serialize (m : Miscellaneous) : Option (List Nat) :=
  match display_to_pcb m.filter_modulation_amount0,
      display_to_pcb m.filter_modulation_amount1,
      display_to_pcb m.pan_modulation_amount with
  | some fma0, some fma1, some pma =>
    toBytearray [m.am % 2 * 128 + m.dca4_modulation_amount * 2,
      m.sync % 2 * 128 + m.frequency,
      m.resonance,
      m.filter_modulation_sources0 + m.filter_modulation_sources1 * 16,
      m.reset_voice % 2 * 128 + fma0,
      m.mono % 2 * 128 + fma1,
      m.reset_envelope % 2 * 128 + m.filter_keyboard_tracking * 2,
      m.reset_oscillator % 2 * 128 + m.glide,
      m.split_direction % 2 * 128 + m.split_point,
      m.layer_flag % 2 * 128 + m.layer_program,
      m.split_flag % 2 * 128 + m.split_program,
      m.split_layer_flag % 2 * 128 + m.split_layer_program,
      m.pan * 16 + m.pan_modulation_source,
      m.cycle % 2 * 128 + pma]
  | _, _, _ => none

/-- Field extraction of `Miscellaneous.deserialize` (lines 646-715). -/
def Miscellaneous.fromBytes
    (b0 b1 b2 b3 b4 b5 b6 b7 b8 b9 b10 b11 b12 b13 : Nat) :
    Option Miscellaneous :=
  match setValueN 0 1 (b0 / 128 % 2) with
  | none => none
  | some am =>
  match setValueN 0 63 (b0 % 128 / 2) with
  | none => none
  | some dca4 =>
  match setValueN 0 1 (b1 / 128 % 2) with
  | none => none
  | some sync =>
  match setValueN 0 127 (b1 % 128) with
  | none => none
  | some frequency =>
  match setValueN 0 31 b2 with
  | none => none
  | some resonance =>
  match setValueN 0 15 (b3 % 16) with
  | none => none
  | some fms0 =>
  match setValueN 0 15 (b3 / 16) with
  | none => none
  | some fms1 =>
  match setValueN 0 1 (b4 / 128 % 2) with
  | none => none
  | some reset_voice =>
  match pcb_to_display (b4 % 128) with
  | none => none
  | some dfa0 =>
  match setValueI (-63) 63 dfa0 with
  | none => none
  | some fma0 =>
  match setValueN 0 1 (b5 / 128 % 2) with
  | none => none
  | some mono =>
  match pcb_to_display (b5 % 128) with
  | none => none
  | some dfa1 =>
  match setValueI (-63) 63 dfa1 with
  | none => none
  | some fma1 =>
  match setValueN 0 1 (b6 / 128 % 2) with
  | none => none
  | some reset_envelope =>
  match setValueN 0 63 (b6 % 128 / 2) with
  | none => none
  | some fkt =>
  match setValueN 0 1 (b7 / 128 % 2) with
  | none => none
  | some reset_oscillator =>
  match setValueN 0 63 (b7 % 128) with
  | none => none
  | some glide =>
  match setValueN 0 1 (b8 / 128 % 2) with
  | none => none
  | some split_direction =>
  match setValueN 0 108 (b8 % 128) with
  | none => none
  | some split_point =>
  match setValueN 0 1 (b9 / 128 % 2) with
  | none => none
  | some layer_flag =>
  match setValueN 0 39 (b9 % 128) with
  | none => none
  | some layer_program =>
  match setValueN 0 1 (b10 / 128 % 2) with
  | none => none
  | some split_flag =>
  match setValueN 0 39 (b10 % 128) with
  | none => none
  | some split_program =>
  match setValueN 0 1 (b11 / 128 % 2) with
  | none => none
  | some split_layer_flag =>
  match setValueN 0 39 (b11 % 128) with
  | none => none
  | some split_layer_program =>
  match setValueN 0 15 (b12 / 16 % 16) with
  | none => none
  | some pan =>
  match setValueN 0 15 (b12 % 16) with
  | none => none
  | some pan_modulation_source =>
  match setValueN 0 1 (b13 / 128 % 2) with
  | none => none
  | some cycle =>
  match pcb_to_display (b13 % 128) with
  | none => none
  | some dpa =>
  match setValueI (-63) 63 dpa with
  | none => none
  | some pma =>
  some ⟨sync, am, mono, glide, reset_voice, reset_envelope,
    reset_oscillator, cycle, pan, pan_modulation_source, pma, dca4,
    frequency, resonance, fms0, fms1, fma0, fma1, fkt, split_direction,
    split_point, layer_flag, layer_program, split_flag, split_program,
    split_layer_flag, split_layer_program⟩

/-- Method `Miscellaneous.deserialize`: draw 14 bytes from the source and extract
the fields. -/
def Miscellaneous.deserialize (bytes : List Nat) :
    Option (Miscellaneous × List Nat) :=
  match bytes with
  | b0 :: b1 :: b2 :: b3 :: b4 :: b5 :: b6 :: b7 :: b8 :: b9 :: b10 ::
      b11 :: b12 :: b13 :: rest =>
    (Miscellaneous.fromBytes b0 b1 b2 b3 b4 b5 b6 b7 b8 b9 b10 b11 b12 b13).map
      (fun m => (m, rest))
  | _ => none

/-- An in-range miscellaneous section serializes to 14 bytes which
deserialize back to the same values, consuming exactly those 14 bytes. -/
theorem miscellaneous_roundtrip (m : Miscellaneous)
    (h : m.InRange) :
    ∃ bs : List Nat, m.serialize = some bs ∧ bs.length = 14 ∧
      (∀ b ∈ bs, b < 256) ∧
      ∀ rest : List Nat,
        Miscellaneous.deserialize (bs ++ rest) = some (m, rest) := by
  obtain ⟨hsync, ham, hmono, hglide, hrv, hre, hro, hcy, hpan, hpms, hpmaa,
    hpmab, hdca4, hfreq, hres, hfs0, hfs1, hfa0a, hfa0b, hfa1a, hfa1b, hfkt,
    hsd, hsp, hlf, hlp, hsf, hspr, hslf, hslp⟩ := h
  obtain ⟨w0, hw0, hw0le, hw0ne, hw0back⟩ := display_pcb_roundtrip hfa0a hfa0b
  obtain ⟨w1, hw1, hw1le, hw1ne, hw1back⟩ := display_pcb_roundtrip hfa1a hfa1b
  obtain ⟨w2, hw2, hw2le, hw2ne, hw2back⟩ := display_pcb_roundtrip hpmaa hpmab
  refine ⟨[m.am % 2 * 128 + m.dca4_modulation_amount * 2,
    m.sync % 2 * 128 + m.frequency,
    m.resonance,
    m.filter_modulation_sources0 + m.filter_modulation_sources1 * 16,
    m.reset_voice % 2 * 128 + w0,
    m.mono % 2 * 128 + w1,
    m.reset_envelope % 2 * 128 + m.filter_keyboard_tracking * 2,
    m.reset_oscillator % 2 * 128 + m.glide,
    m.split_direction % 2 * 128 + m.split_point,
    m.layer_flag % 2 * 128 + m.layer_program,
    m.split_flag % 2 * 128 + m.split_program,
    m.split_layer_flag % 2 * 128 + m.split_layer_program,
    m.pan * 16 + m.pan_modulation_source,
    m.cycle % 2 * 128 + w2], ?_, rfl, ?_, ?_⟩
  · simp only [Miscellaneous.serialize, hw0, hw1, hw2]
    exact toBytearray_pass (by intro b hb; fin_cases hb <;> omega)
  · intro b hb
    fin_cases hb <;> omega
  · intro rest
    have e0a : (m.am % 2 * 128 + m.dca4_modulation_amount * 2) / 128 % 2 =
        m.am := by omega
    have e0b : (m.am % 2 * 128 + m.dca4_modulation_amount * 2) % 128 / 2 =
        m.dca4_modulation_amount := by omega
    have e1a : (m.sync % 2 * 128 + m.frequency) / 128 % 2 = m.sync := by omega
    have e1b : (m.sync % 2 * 128 + m.frequency) % 128 = m.frequency := by
      omega
    have e3a : (m.filter_modulation_sources0 +
        m.filter_modulation_sources1 * 16) % 16 =
        m.filter_modulation_sources0 := by omega
    have e3b : (m.filter_modulation_sources0 +
        m.filter_modulation_sources1 * 16) / 16 =
        m.filter_modulation_sources1 := by omega
    have e4a : (m.reset_voice % 2 * 128 + w0) / 128 % 2 = m.reset_voice := by
      omega
    have e4b : (m.reset_voice % 2 * 128 + w0) % 128 = w0 := by omega
    have e5a : (m.mono % 2 * 128 + w1) / 128 % 2 = m.mono := by omega
    have e5b : (m.mono % 2 * 128 + w1) % 128 = w1 := by omega
    have e6a : (m.reset_envelope % 2 * 128 + m.filter_keyboard_tracking * 2) /
        128 % 2 = m.reset_envelope := by omega
    have e6b : (m.reset_envelope % 2 * 128 + m.filter_keyboard_tracking * 2) %
        128 / 2 = m.filter_keyboard_tracking := by omega
    have e7a : (m.reset_oscillator % 2 * 128 + m.glide) / 128 % 2 =
        m.reset_oscillator := by omega
    have e7b : (m.reset_oscillator % 2 * 128 + m.glide) % 128 = m.glide := by
      omega
    have e8a : (m.split_direction % 2 * 128 + m.split_point) / 128 % 2 =
        m.split_direction := by omega
    have e8b : (m.split_direction % 2 * 128 + m.split_point) % 128 =
        m.split_point := by omega
    have e9a : (m.layer_flag % 2 * 128 + m.layer_program) / 128 % 2 =
        m.layer_flag := by omega
    have e9b : (m.layer_flag % 2 * 128 + m.layer_program) % 128 =
        m.layer_program := by omega
    have e10a : (m.split_flag % 2 * 128 + m.split_program) / 128 % 2 =
        m.split_flag := by omega
    have e10b : (m.split_flag % 2 * 128 + m.split_program) % 128 =
        m.split_program := by omega
    have e11a : (m.split_layer_flag % 2 * 128 + m.split_layer_program) /
        128 % 2 = m.split_layer_flag := by omega
    have e11b : (m.split_layer_flag % 2 * 128 + m.split_layer_program) %
        128 = m.split_layer_program := by omega
    have e12a : (m.pan * 16 + m.pan_modulation_source) / 16 % 16 =
        m.pan := by omega
    have e12b : (m.pan * 16 + m.pan_modulation_source) % 16 =
        m.pan_modulation_source := by omega
    have e13a : (m.cycle % 2 * 128 + w2) / 128 % 2 = m.cycle := by omega
    have e13b : (m.cycle % 2 * 128 + w2) % 128 = w2 := by omega
    have s1 : setValueN 0 1 m.am = some m.am :=
      setValueN_pass (Nat.zero_le _) ham
    have s2 : setValueN 0 63 m.dca4_modulation_amount =
        some m.dca4_modulation_amount := setValueN_pass (Nat.zero_le _) hdca4
    have s3 : setValueN 0 1 m.sync = some m.sync :=
      setValueN_pass (Nat.zero_le _) hsync
    have s4 : setValueN 0 127 m.frequency = some m.frequency :=
      setValueN_pass (Nat.zero_le _) hfreq
    have s5 : setValueN 0 31 m.resonance = some m.resonance :=
      setValueN_pass (Nat.zero_le _) hres
    have s6 : setValueN 0 15 m.filter_modulation_sources0 =
        some m.filter_modulation_sources0 :=
      setValueN_pass (Nat.zero_le _) hfs0
    have s7 : setValueN 0 15 m.filter_modulation_sources1 =
        some m.filter_modulation_sources1 :=
      setValueN_pass (Nat.zero_le _) hfs1
    have s8 : setValueN 0 1 m.reset_voice = some m.reset_voice :=
      setValueN_pass (Nat.zero_le _) hrv
    have s9 : setValueI (-63) 63 m.filter_modulation_amount0 =
        some m.filter_modulation_amount0 := setValueI_pass hfa0a hfa0b
    have s10 : setValueN 0 1 m.mono = some m.mono :=
      setValueN_pass (Nat.zero_le _) hmono
    have s11 : setValueI (-63) 63 m.filter_modulation_amount1 =
        some m.filter_modulation_amount1 := setValueI_pass hfa1a hfa1b
    have s12 : setValueN 0 1 m.reset_envelope = some m.reset_envelope :=
      setValueN_pass (Nat.zero_le _) hre
    have s13 : setValueN 0 63 m.filter_keyboard_tracking =
        some m.filter_keyboard_tracking := setValueN_pass (Nat.zero_le _) hfkt
    have s14 : setValueN 0 1 m.reset_oscillator = some m.reset_oscillator :=
      setValueN_pass (Nat.zero_le _) hro
    have s15 : setValueN 0 63 m.glide = some m.glide :=
      setValueN_pass (Nat.zero_le _) hglide
    have s16 : setValueN 0 1 m.split_direction = some m.split_direction :=
      setValueN_pass (Nat.zero_le _) hsd
    have s17 : setValueN 0 108 m.split_point = some m.split_point :=
      setValueN_pass (Nat.zero_le _) hsp
    have s18 : setValueN 0 1 m.layer_flag = some m.layer_flag :=
      setValueN_pass (Nat.zero_le _) hlf
    have s19 : setValueN 0 39 m.layer_program = some m.layer_program :=
      setValueN_pass (Nat.zero_le _) hlp
    have s20 : setValueN 0 1 m.split_flag = some m.split_flag :=
      setValueN_pass (Nat.zero_le _) hsf
    have s21 : setValueN 0 39 m.split_program = some m.split_program :=
      setValueN_pass (Nat.zero_le _) hspr
    have s22 : setValueN 0 1 m.split_layer_flag = some m.split_layer_flag :=
      setValueN_pass (Nat.zero_le _) hslf
    have s23 : setValueN 0 39 m.split_layer_program =
        some m.split_layer_program := setValueN_pass (Nat.zero_le _) hslp
    have s24 : setValueN 0 15 m.pan = some m.pan :=
      setValueN_pass (Nat.zero_le _) hpan
    have s25 : setValueN 0 15 m.pan_modulation_source =
        some m.pan_modulation_source := setValueN_pass (Nat.zero_le _) hpms
    have s26 : setValueN 0 1 m.cycle = some m.cycle :=
      setValueN_pass (Nat.zero_le _) hcy
    have s27 : setValueI (-63) 63 m.pan_modulation_amount =
        some m.pan_modulation_amount := setValueI_pass hpmaa hpmab
    simp only [Miscellaneous.deserialize, Miscellaneous.fromBytes,
      List.cons_append, List.nil_append, e0a, e0b, e1a, e1b, e3a, e3b, e4a,
      e4b, e5a, e5b, e6a, e6b, e7a, e7b, e8a, e8b, e9a, e9b, e10a, e10b,
      e11a, e11b, e12a, e12b, e13a, e13b, hw0back, hw1back, hw2back,
      s1, s2, s3, s4, s5, s6, s7, s8, s9, s10, s11, s12, s13, s14, s15,
      s16, s17, s18, s19, s20, s21, s22, s23, s24, s25, s26, s27,
      Option.map_some']

/-- A successful `Miscellaneous.deserialize` consumes exactly 14 bytes. -/
theorem miscellaneous_consumes {bytes : List Nat}
    {x : Miscellaneous × List Nat}
    (h : Miscellaneous.deserialize bytes = some x) : x.2 = bytes.drop 14 := by
  rcases bytes with _ | ⟨b0, _ | ⟨b1, _ | ⟨b2, _ | ⟨b3, _ | ⟨b4, _ | ⟨b5,
    _ | ⟨b6, _ | ⟨b7, _ | ⟨b8, _ | ⟨b9, _ | ⟨b10, _ | ⟨b11, _ | ⟨b12,
    _ | ⟨b13, rest⟩⟩⟩⟩⟩⟩⟩⟩⟩⟩⟩⟩⟩⟩ <;>
    simp only [Miscellaneous.deserialize, Option.map_eq_some'] at h
  iterate 14 exact absurd h (by simp)
  obtain ⟨m, _, hx⟩ := h
  rw [← hx]
  rfl

/-! ## ESQ1Patch (esq1.py lines 718-787) -/

/-- Per-character `str.upper()`.  Patch names are constrained to ASCII
(codes below 128) by `ESQ1Patch.InRange`; on ASCII, Python's `str.upper()`
maps exactly the codes 97..122 down by 32 and keeps everything else. -/
def upperChar (c : Nat) : Nat :=
  if 97 ≤ c ∧ c ≤ 122 then c - 32 else c

/-- Method `ESQ1Patch.clean_name` (lines 743-753): truncate the name to 6
characters if longer, right-pad with spaces (code 32) if shorter, upper-case
it, and build a `bytearray` from the character codes (the constructor
rejects codes outside 0..255, like `append`). -/
def clean_name (name : List Nat) : Option (List Nat) :=
  let name_cleaned :=
    if name.length ≥ 6 then name.take 6
    else name ++ List.replicate (6 - name.length) 32
  toBytearray (name_cleaned.map upperChar)

/-- The whole patch (`ESQ1Patch.__init__`, lines 736-741): a name plus
4 envelopes, 3 LFOs, 3 oscillators and one miscellaneous section, with the
fixed-length Python lists unrolled into numbered fields.  The name is the
list of its character codes. -/
structure ESQ1Patch where
  name : List Nat
  envelopes0 : Envelope
  envelopes1 : Envelope
  envelopes2 : Envelope
  envelopes3 : Envelope
  lfos0 : LFO
  lfos1 : LFO
  lfos2 : LFO
  oscillators0 : Oscillator
  oscillators1 : Oscillator
  oscillators2 : Oscillator
  miscellaneous : Miscellaneous
deriving DecidableEq

/-- A patch is in range when every bounded parameter holds an in-range value
and the name is ASCII (each code below 128; on that subset the embedded
`upperChar` agrees with Python's `str.upper` and serialization cannot
overflow a byte). -/
def ESQ1Patch.InRange (p : ESQ1Patch) : Prop :=
  (∀ c ∈ p.name, c < 128) ∧
  p.envelopes0.InRange ∧ p.envelopes1.InRange ∧ p.envelopes2.InRange ∧
  p.envelopes3.InRange ∧ p.lfos0.InRange ∧ p.lfos1.InRange ∧
  p.lfos2.InRange ∧ p.oscillators0.InRange ∧ p.oscillators1.InRange ∧
  p.oscillators2.InRange ∧ p.miscellaneous.InRange

instance (p : ESQ1Patch) : Decidable p.InRange := by
  unfold ESQ1Patch.InRange
  infer_instance

/-- Method `ESQ1Patch.serialize` (lines 755-770): the cleaned name followed by the
serialized envelopes, LFOs, oscillators and miscellaneous section, in
declaration order. -/
def ESQ1Patch.serialize (p : ESQ1Patch) : Option (List Nat) :=
  match clean_name p.name with
  | none => none
  | some nm =>
  match p.envelopes0.serialize with
  | none => none
  | some e0 =>
  match p.envelopes1.serialize with
  | none => none
  | some e1 =>
  match p.envelopes2.serialize with
  | none => none
  | some e2 =>
  match p.envelopes3.serialize with
  | none => none
  | some e3 =>
  match p.lfos0.serialize with
  | none => none
  | some l0 =>
  match p.lfos1.serialize with
  | none => none
  | some l1 =>
  match p.lfos2.serialize with
  | none => none
  | some l2 =>
  match p.oscillators0.serialize with
  | none => none
  | some o0 =>
  match p.oscillators1.serialize with
  | none => none
  | some o1 =>
  match p.oscillators2.serialize with
  | none => none
  | some o2 =>
  match p.miscellaneous.serialize with
  | none => none
  | some ms =>
  some (nm ++ e0 ++ e1 ++ e2 ++ e3 ++ l0 ++ l1 ++ l2 ++ o0 ++ o1 ++ o2 ++ ms)

/-- Method `ESQ1Patch.deserialize` (lines 772-787): read 6 name characters
(`chr(next(bytes))`, no further validation), then delegate to the group
deserializers in declaration order over the single shared byte source. -/
def ESQ1Patch.deserialize (bytes : List Nat) :
    Option (ESQ1Patch × List Nat) :=
  match bytes with
  | n0 :: n1 :: n2 :: n3 :: n4 :: n5 :: rest =>
    match Envelope.deserialize rest with
    | none => none
    | some (e0, rest) =>
    match Envelope.deserialize rest with
    | none => none
    | some (e1, rest) =>
    match Envelope.deserialize rest with
    | none => none
    | some (e2, rest) =>
    match Envelope.deserialize rest with
    | none => none
    | some (e3, rest) =>
    match LFO.deserialize rest with
    | none => none
    | some (l0, rest) =>
    match LFO.deserialize rest with
    | none => none
    | some (l1, rest) =>
    match LFO.deserialize rest with
    | none => none
    | some (l2, rest) =>
    match Oscillator.deserialize rest with
    | none => none
    | some (o0, rest) =>
    match Oscillator.deserialize rest with
    | none => none
    | some (o1, rest) =>
    match Oscillator.deserialize rest with
    | none => none
    | some (o2, rest) =>
    match Miscellaneous.deserialize rest with
    | none => none
    | some (ms, rest) =>
    some (⟨[n0, n1, n2, n3, n4, n5], e0, e1, e2, e3, l0, l1, l2,
      o0, o1, o2, ms⟩, rest)
  | _ => none

/-- An ASCII name cleans to six explicit byte-range characters. -/
theorem clean_name_six {name : List Nat} (h : ∀ c ∈ name, c < 128) :
    ∃ c0 c1 c2 c3 c4 c5 : Nat,
      clean_name name = some [c0, c1, c2, c3, c4, c5] ∧
      ∀ b ∈ [c0, c1, c2, c3, c4, c5], b < 256 := by
  have hclean : ∀ c ∈ (if name.length ≥ 6 then name.take 6
      else name ++ List.replicate (6 - name.length) 32), c < 128 := by
    intro c hc
    split at hc
    · exact h c (List.mem_of_mem_take hc)
    · rcases List.mem_append.mp hc with hc | hc
      · exact h c hc
      · rw [List.eq_of_mem_replicate hc]
        omega
  have hlen : (if name.length ≥ 6 then name.take 6
      else name ++ List.replicate (6 - name.length) 32).length = 6 := by
    split <;> simp <;> omega
  have hmap : ∀ b ∈ ((if name.length ≥ 6 then name.take 6
      else name ++ List.replicate (6 - name.length) 32).map upperChar),
      b < 256 := by
    intro b hb
    obtain ⟨c, hc, rfl⟩ := List.mem_map.mp hb
    have := hclean c hc
    unfold upperChar
    split <;> omega
  have hcn : clean_name name = some ((if name.length ≥ 6 then name.take 6
      else name ++ List.replicate (6 - name.length) 32).map upperChar) :=
    toBytearray_pass hmap
  set nm := (if name.length ≥ 6 then name.take 6
    else name ++ List.replicate (6 - name.length) 32).map upperChar with hnm
  have hnmlen : nm.length = 6 := by
    rw [hnm, List.length_map]
    exact hlen
  rcases nm with _ | ⟨c0, _ | ⟨c1, _ | ⟨c2, _ | ⟨c3, _ | ⟨c4, _ | ⟨c5,
    _ | ⟨c6, t⟩⟩⟩⟩⟩⟩⟩ <;> simp only [List.length_cons, List.length_nil] at hnmlen <;>
    try omega
  exact ⟨c0, c1, c2, c3, c4, c5, hcn, hmap⟩

/-- A six-character upper-case name is left unchanged by `clean_name`. -/
theorem clean_name_id {name : List Nat} (hlen : name.length = 6)
    (h : ∀ c ∈ name, 65 ≤ c ∧ c ≤ 90) : clean_name name = some name := by
  unfold clean_name
  rw [if_pos (by omega)]
  have htake : name.take 6 = name := by
    rw [← hlen]
    exact List.take_length name
  rw [htake]
  have hmap : name.map upperChar = name := by
    have : ∀ c ∈ name, upperChar c = c := by
      intro c hc
      have := h c hc
      unfold upperChar
      rw [if_neg (by omega)]
    calc name.map upperChar = name.map id := List.map_congr_left this
    _ = name := List.map_id name
  show toBytearray (name.map upperChar) = some name
  rw [hmap]
  exact toBytearray_pass (by intro b hb; have := h b hb; omega)

/-- Full decomposition of an in-range patch's serialization: `clean_name`
and every group serializer succeed, the output is their concatenation in
declaration order (6 + 4×10 + 3×4 + 3×10 + 14 = 102 bytes, all in byte
range), and deserializing it back yields the same patch with the cleaned
name. -/
theorem ESQ1Patch.serialize_parts (p : ESQ1Patch) (h : p.InRange) :
    ∃ nm be0 be1 be2 be3 bl0 bl1 bl2 bo0 bo1 bo2 bm : List Nat,
      clean_name p.name = some nm ∧ nm.length = 6 ∧
      p.envelopes0.serialize = some be0 ∧ be0.length = 10 ∧
      p.envelopes1.serialize = some be1 ∧ be1.length = 10 ∧
      p.envelopes2.serialize = some be2 ∧ be2.length = 10 ∧
      p.envelopes3.serialize = some be3 ∧ be3.length = 10 ∧
      p.lfos0.serialize = some bl0 ∧ bl0.length = 4 ∧
      p.lfos1.serialize = some bl1 ∧ bl1.length = 4 ∧
      p.lfos2.serialize = some bl2 ∧ bl2.length = 4 ∧
      p.oscillators0.serialize = some bo0 ∧ bo0.length = 10 ∧
      p.oscillators1.serialize = some bo1 ∧ bo1.length = 10 ∧
      p.oscillators2.serialize = some bo2 ∧ bo2.length = 10 ∧
      p.miscellaneous.serialize = some bm ∧ bm.length = 14 ∧
      p.serialize = some (nm ++ be0 ++ be1 ++ be2 ++ be3 ++ bl0 ++ bl1 ++
        bl2 ++ bo0 ++ bo1 ++ bo2 ++ bm) ∧
      (nm ++ be0 ++ be1 ++ be2 ++ be3 ++ bl0 ++ bl1 ++ bl2 ++ bo0 ++ bo1 ++
        bo2 ++ bm).length = 102 ∧
      (∀ b ∈ nm ++ be0 ++ be1 ++ be2 ++ be3 ++ bl0 ++ bl1 ++ bl2 ++ bo0 ++
        bo1 ++ bo2 ++ bm, b < 256) ∧
      ∀ rest : List Nat,
        ESQ1Patch.deserialize ((nm ++ be0 ++ be1 ++ be2 ++ be3 ++ bl0 ++
          bl1 ++ bl2 ++ bo0 ++ bo1 ++ bo2 ++ bm) ++ rest) =
          some ({ p with name := nm }, rest) := by
  obtain ⟨hn, h0, h1, h2, h3, hL0, hL1, hL2, hO0, hO1, hO2, hM⟩ := h
  obtain ⟨c0, c1, c2, c3, c4, c5, hnm, hnmlt⟩ := clean_name_six hn
  obtain ⟨be0, he0, he0len, he0lt, he0d⟩ := envelope_roundtrip _ h0
  obtain ⟨be1, he1, he1len, he1lt, he1d⟩ := envelope_roundtrip _ h1
  obtain ⟨be2, he2, he2len, he2lt, he2d⟩ := envelope_roundtrip _ h2
  obtain ⟨be3, he3, he3len, he3lt, he3d⟩ := envelope_roundtrip _ h3
  obtain ⟨bl0, hl0, hl0len, hl0lt, hl0d⟩ := lfo_roundtrip _ hL0
  obtain ⟨bl1, hl1, hl1len, hl1lt, hl1d⟩ := lfo_roundtrip _ hL1
  obtain ⟨bl2, hl2, hl2len, hl2lt, hl2d⟩ := lfo_roundtrip _ hL2
  obtain ⟨bo0, ho0, ho0len, ho0lt, ho0d⟩ := oscillator_roundtrip _ hO0
  obtain ⟨bo1, ho1, ho1len, ho1lt, ho1d⟩ := oscillator_roundtrip _ hO1
  obtain ⟨bo2, ho2, ho2len, ho2lt, ho2d⟩ := oscillator_roundtrip _ hO2
  obtain ⟨bm, hm, hmlen, hmlt, hmd⟩ := miscellaneous_roundtrip _ hM
  refine ⟨[c0, c1, c2, c3, c4, c5], be0, be1, be2, be3, bl0, bl1, bl2,
    bo0, bo1, bo2, bm, hnm, rfl, he0, he0len, he1, he1len, he2, he2len,
    he3, he3len, hl0, hl0len, hl1, hl1len, hl2, hl2len, ho0, ho0len,
    ho1, ho1len, ho2, ho2len, hm, hmlen, ?_, ?_, ?_, ?_⟩
  · simp only [ESQ1Patch.serialize, hnm, he0, he1, he2, he3, hl0, hl1, hl2,
      ho0, ho1, ho2, hm]
  · simp only [List.length_append, he0len, he1len, he2len, he3len, hl0len,
      hl1len, hl2len, ho0len, ho1len, ho2len, hmlen, List.length_cons,
      List.length_nil]
  · intro b hb
    simp only [List.mem_append] at hb
    rcases hb with ((((((((((hb | hb) | hb) | hb) | hb) | hb) | hb) | hb) |
      hb) | hb) | hb) | hb
    · exact hnmlt b hb
    · exact he0lt b hb
    · exact he1lt b hb
    · exact he2lt b hb
    · exact he3lt b hb
    · exact hl0lt b hb
    · exact hl1lt b hb
    · exact hl2lt b hb
    · exact ho0lt b hb
    · exact ho1lt b hb
    · exact ho2lt b hb
    · exact hmlt b hb
  · intro rest
    simp only [List.append_assoc, List.cons_append, List.nil_append,
      ESQ1Patch.deserialize, he0d, he1d, he2d, he3d, hl0d, hl1d, hl2d,
      ho0d, ho1d, ho2d, hmd]

/-! ## Default ("freshly constructed") instances -/

/-- Construction `Envelope()` defaults: every parameter defaults to its minimum (0). -/
def Envelope.init : Envelope := ⟨0, 0, 0, 0, 0, 0, 0, 0, 0, 0⟩

/-- Construction `LFO()` defaults: all zero except `modulation_source`, which defaults to
`OFF = 15`. -/
def LFO.init : LFO := ⟨0, 0, 0, 0, 0, 0, 0, 15⟩

/-- Construction `Oscillator()` defaults: `semitone` defaults to 36, modulation sources
to `OFF = 15`, everything else to 0. -/
def Oscillator.init : Oscillator :=
  ⟨36, 0, 15, 15, 0, 0, 0, 0, 0, 15, 15, 0, 0⟩

/-- Construction `Miscellaneous()` defaults: `pan` defaults to 8, modulation sources to
`OFF = 15`, everything else to 0. -/
def Miscellaneous.init : Miscellaneous :=
  ⟨0, 0, 0, 0, 0, 0, 0, 0, 8, 15, 0, 0, 0, 0, 15, 15, 0, 0, 0, 0, 0,
   0, 0, 0, 0, 0, 0⟩

/-- Construction `ESQ1Patch()` defaults: a six-space name and default groups. -/
def ESQ1Patch.init : ESQ1Patch :=
  ⟨[32, 32, 32, 32, 32, 32], .init, .init, .init, .init, .init, .init,
   .init, .init, .init, .init, .init⟩

/-! ## C1 and C2 -/

/-- C1: for every patch whose name is exactly 6 upper-case characters and
whose bounded values are all in range, deserializing the serialized bytes
reconstructs the identical patch (name included); likewise every in-range
instance of each parameter group round-trips through its own
serializer/deserializer. -/
theorem serialize_deserialize_roundtrip :
    (∀ p : ESQ1Patch, p.InRange → p.name.length = 6 →
      (∀ c ∈ p.name, 65 ≤ c ∧ c ≤ 90) →
      ∃ bs : List Nat, p.serialize = some bs ∧
        ∀ rest : List Nat,
          ESQ1Patch.deserialize (bs ++ rest) = some (p, rest)) ∧
    (∀ e : Envelope, e.InRange → ∃ bs : List Nat, e.serialize = some bs ∧
      ∀ rest : List Nat, Envelope.deserialize (bs ++ rest) = some (e, rest)) ∧
    (∀ l : LFO, l.InRange → ∃ bs : List Nat, l.serialize = some bs ∧
      ∀ rest : List Nat, LFO.deserialize (bs ++ rest) = some (l, rest)) ∧
    (∀ o : Oscillator, o.InRange → ∃ bs : List Nat, o.serialize = some bs ∧
      ∀ rest : List Nat,
        Oscillator.deserialize (bs ++ rest) = some (o, rest)) ∧
    (∀ m : Miscellaneous, m.InRange → ∃ bs : List Nat,
      m.serialize = some bs ∧
      ∀ rest : List Nat,
        Miscellaneous.deserialize (bs ++ rest) = some (m, rest)) := by
  refine ⟨?_, ?_, ?_, ?_, ?_⟩
  · intro p hin hlen hupper
    obtain ⟨nm, be0, be1, be2, be3, bl0, bl1, bl2, bo0, bo1, bo2, bm,
      hnm, hnmlen, he0, he0len, he1, he1len, he2, he2len, he3, he3len,
      hl0, hl0len, hl1, hl1len, hl2, hl2len, ho0, ho0len, ho1, ho1len,
      ho2, ho2len, hm, hmlen, hser, hlen102, hlt, hdes⟩ :=
      ESQ1Patch.serialize_parts p hin
    have hid : clean_name p.name = some p.name := clean_name_id hlen hupper
    rw [hid] at hnm
    obtain rfl : p.name = nm := Option.some.inj hnm
    refine ⟨_, hser, fun rest => ?_⟩
    rw [hdes rest]
  · intro e hin
    obtain ⟨bs, hser, _, _, hdes⟩ := envelope_roundtrip e hin
    exact ⟨bs, hser, hdes⟩
  · intro l hin
    obtain ⟨bs, hser, _, _, hdes⟩ := lfo_roundtrip l hin
    exact ⟨bs, hser, hdes⟩
  · intro o hin
    obtain ⟨bs, hser, _, _, hdes⟩ := oscillator_roundtrip o hin
    exact ⟨bs, hser, hdes⟩
  · intro m hin
    obtain ⟨bs, hser, _, _, hdes⟩ := miscellaneous_roundtrip m hin
    exact ⟨bs, hser, hdes⟩

/-- Witness for C1: a default patch renamed "ABCDEF" and the default group
instances. -/
theorem serialize_deserialize_roundtrip_witness :
    (∃ bs : List Nat,
      ESQ1Patch.serialize
        { ESQ1Patch.init with name := [65, 66, 67, 68, 69, 70] } = some bs ∧
      ∀ rest : List Nat, ESQ1Patch.deserialize (bs ++ rest) =
        some ({ ESQ1Patch.init with name := [65, 66, 67, 68, 69, 70] },
          rest)) ∧
    (∃ bs : List Nat, Envelope.init.serialize = some bs ∧
      ∀ rest : List Nat,
        Envelope.deserialize (bs ++ rest) = some (Envelope.init, rest)) ∧
    (∃ bs : List Nat, LFO.init.serialize = some bs ∧
      ∀ rest : List Nat,
        LFO.deserialize (bs ++ rest) = some (LFO.init, rest)) ∧
    (∃ bs : List Nat, Oscillator.init.serialize = some bs ∧
      ∀ rest : List Nat,
        Oscillator.deserialize (bs ++ rest) = some (Oscillator.init, rest)) ∧
    (∃ bs : List Nat, Miscellaneous.init.serialize = some bs ∧
      ∀ rest : List Nat, Miscellaneous.deserialize (bs ++ rest) =
        some (Miscellaneous.init, rest)) :=
  ⟨serialize_deserialize_roundtrip.1 _ (by decide) (by decide) (by decide),
   serialize_deserialize_roundtrip.2.1 Envelope.init (by decide),
   serialize_deserialize_roundtrip.2.2.1 LFO.init (by decide),
   serialize_deserialize_roundtrip.2.2.2.1 Oscillator.init (by decide),
   serialize_deserialize_roundtrip.2.2.2.2 Miscellaneous.init (by decide)⟩

/-- C2: an in-range patch serializes to exactly 102 bytes — the 6 cleaned
name bytes, then the 4 envelopes' 10-byte runs, the 3 LFOs' 4-byte runs,
the 3 oscillators' 10-byte runs and the 14-byte miscellaneous run, in that
fixed order — and each group's deserializer consumes exactly as many bytes
as its serializer emits (10/4/10/14). -/
theorem serialize_length_and_consumption :
    (∀ p : ESQ1Patch, p.InRange →
      ∃ nm be0 be1 be2 be3 bl0 bl1 bl2 bo0 bo1 bo2 bm : List Nat,
        clean_name p.name = some nm ∧ nm.length = 6 ∧
        p.envelopes0.serialize = some be0 ∧ be0.length = 10 ∧
        p.envelopes1.serialize = some be1 ∧ be1.length = 10 ∧
        p.envelopes2.serialize = some be2 ∧ be2.length = 10 ∧
        p.envelopes3.serialize = some be3 ∧ be3.length = 10 ∧
        p.lfos0.serialize = some bl0 ∧ bl0.length = 4 ∧
        p.lfos1.serialize = some bl1 ∧ bl1.length = 4 ∧
        p.lfos2.serialize = some bl2 ∧ bl2.length = 4 ∧
        p.oscillators0.serialize = some bo0 ∧ bo0.length = 10 ∧
        p.oscillators1.serialize = some bo1 ∧ bo1.length = 10 ∧
        p.oscillators2.serialize = some bo2 ∧ bo2.length = 10 ∧
        p.miscellaneous.serialize = some bm ∧ bm.length = 14 ∧
        p.serialize = some (nm ++ be0 ++ be1 ++ be2 ++ be3 ++ bl0 ++ bl1 ++
          bl2 ++ bo0 ++ bo1 ++ bo2 ++ bm) ∧
        (nm ++ be0 ++ be1 ++ be2 ++ be3 ++ bl0 ++ bl1 ++ bl2 ++ bo0 ++
          bo1 ++ bo2 ++ bm).length = 102) ∧
    (∀ (bytes : List Nat) (x : Envelope × List Nat),
      Envelope.deserialize bytes = some x → x.2 = bytes.drop 10) ∧
    (∀ (bytes : List Nat) (x : LFO × List Nat),
      LFO.deserialize bytes = some x → x.2 = bytes.drop 4) ∧
    (∀ (bytes : List Nat) (x : Oscillator × List Nat),
      Oscillator.deserialize bytes = some x → x.2 = bytes.drop 10) ∧
    (∀ (bytes : List Nat) (x : Miscellaneous × List Nat),
      Miscellaneous.deserialize bytes = some x → x.2 = bytes.drop 14) := by
  refine ⟨?_, fun _ _ => envelope_consumes,
    fun _ _ => lfo_consumes,
    fun _ _ => oscillator_consumes,
    fun _ _ => miscellaneous_consumes⟩
  intro p hin
  obtain ⟨nm, be0, be1, be2, be3, bl0, bl1, bl2, bo0, bo1, bo2, bm,
    hnm, hnmlen, he0, he0len, he1, he1len, he2, he2len, he3, he3len,
    hl0, hl0len, hl1, hl1len, hl2, hl2len, ho0, ho0len, ho1, ho1len,
    ho2, ho2len, hm, hmlen, hser, hlen, _, _⟩ := ESQ1Patch.serialize_parts p hin
  exact ⟨nm, be0, be1, be2, be3, bl0, bl1, bl2, bo0, bo1, bo2, bm,
    hnm, hnmlen, he0, he0len, he1, he1len, he2, he2len, he3, he3len,
    hl0, hl0len, hl1, hl1len, hl2, hl2len, ho0, ho0len, ho1, ho1len,
    ho2, ho2len, hm, hmlen, hser, hlen⟩

/-- Witness for C2: the default patch for the length part, and concrete
11-byte / 5-byte / 11-byte / 15-byte inputs for the consumption parts. -/
theorem serialize_length_and_consumption_witness :
    (∃ nm be0 be1 be2 be3 bl0 bl1 bl2 bo0 bo1 bo2 bm : List Nat,
      clean_name ESQ1Patch.init.name = some nm ∧ nm.length = 6 ∧
      ESQ1Patch.init.envelopes0.serialize = some be0 ∧ be0.length = 10 ∧
      ESQ1Patch.init.envelopes1.serialize = some be1 ∧ be1.length = 10 ∧
      ESQ1Patch.init.envelopes2.serialize = some be2 ∧ be2.length = 10 ∧
      ESQ1Patch.init.envelopes3.serialize = some be3 ∧ be3.length = 10 ∧
      ESQ1Patch.init.lfos0.serialize = some bl0 ∧ bl0.length = 4 ∧
      ESQ1Patch.init.lfos1.serialize = some bl1 ∧ bl1.length = 4 ∧
      ESQ1Patch.init.lfos2.serialize = some bl2 ∧ bl2.length = 4 ∧
      ESQ1Patch.init.oscillators0.serialize = some bo0 ∧ bo0.length = 10 ∧
      ESQ1Patch.init.oscillators1.serialize = some bo1 ∧ bo1.length = 10 ∧
      ESQ1Patch.init.oscillators2.serialize = some bo2 ∧ bo2.length = 10 ∧
      ESQ1Patch.init.miscellaneous.serialize = some bm ∧ bm.length = 14 ∧
      ESQ1Patch.init.serialize = some (nm ++ be0 ++ be1 ++ be2 ++ be3 ++
        bl0 ++ bl1 ++ bl2 ++ bo0 ++ bo1 ++ bo2 ++ bm) ∧
      (nm ++ be0 ++ be1 ++ be2 ++ be3 ++ bl0 ++ bl1 ++ bl2 ++ bo0 ++ bo1 ++
        bo2 ++ bm).length = 102) ∧
    (∀ x : Envelope × List Nat,
      Envelope.deserialize [0, 0, 0, 0, 0, 0, 0, 0, 0, 0, 9] = some x →
      x.2 = List.drop 10 [0, 0, 0, 0, 0, 0, 0, 0, 0, 0, 9]) ∧
    (∀ x : LFO × List Nat,
      LFO.deserialize [0, 0, 0, 0, 9] = some x →
      x.2 = List.drop 4 [0, 0, 0, 0, 9]) ∧
    (∀ x : Oscillator × List Nat,
      Oscillator.deserialize [0, 0, 0, 0, 0, 0, 0, 0, 0, 0, 9] = some x →
      x.2 = List.drop 10 [0, 0, 0, 0, 0, 0, 0, 0, 0, 0, 9]) ∧
    (∀ x : Miscellaneous × List Nat,
      Miscellaneous.deserialize [0, 0, 0, 0, 0, 0, 0, 0, 0, 0, 0, 0, 0, 0, 9]
        = some x →
      x.2 = List.drop 14 [0, 0, 0, 0, 0, 0, 0, 0, 0, 0, 0, 0, 0, 0, 9]) :=
  ⟨serialize_length_and_consumption.1 ESQ1Patch.init (by decide),
   fun x => serialize_length_and_consumption.2.1 _ x,
   fun x => serialize_length_and_consumption.2.2.1 _ x,
   fun x => serialize_length_and_consumption.2.2.2.1 _ x,
   fun x => serialize_length_and_consumption.2.2.2.2 _ x⟩

/-! ## C5: LFO bit layout -/

theorem setValueN_inv {minimum maximum v w : Nat}
    (h : setValueN minimum maximum v = some w) :
    w = v ∧ minimum ≤ v ∧ v ≤ maximum := by
  unfold setValueN at h
  split at h
  · exact absurd h (by simp)
  · split at h
    · exact absurd h (by simp)
    · exact ⟨(Option.some.inj h).symm, by omega, by omega⟩

/-- C5: an in-range LFO serializes to the 4 bytes
`(waveform << 6) | frequency`,
`(modulation_source high 2 bits << 6) | levels[0]`,
`(modulation_source low 2 bits << 6) | levels[1]`,
`(reset << 7) | (humanize << 6) | delay`; and a successful
`LFO.deserialize` of any 4 bytes extracts exactly those bit ranges back,
reassembling the modulation source from its two 2-bit halves (high half
from byte 1's top bits, low half from byte 2's top bits). -/
theorem lfo_bit_layout :
    (∀ l : LFO, l.InRange →
      l.serialize = some [l.waveform * 64 + l.frequency,
        l.modulation_source / 4 * 64 + l.levels0,
        l.modulation_source % 4 * 64 + l.levels1,
        l.reset * 128 + l.humanize * 64 + l.delay]) ∧
    (∀ (b0 b1 b2 b3 : Nat) (rest : List Nat) (x : LFO × List Nat),
      LFO.deserialize (b0 :: b1 :: b2 :: b3 :: rest) = some x →
      x.2 = rest ∧
      x.1.waveform = b0 / 64 % 4 ∧ x.1.frequency = b0 % 64 ∧
      x.1.levels0 = b1 % 64 ∧ x.1.levels1 = b2 % 64 ∧
      x.1.modulation_source = b2 / 64 % 4 + b1 / 64 % 4 * 4 ∧
      x.1.reset = b3 / 128 % 2 ∧ x.1.humanize = b3 / 64 % 2 ∧
      x.1.delay = b3 % 64) := by
  constructor
  · intro l h
    obtain ⟨hl0, hl1, hf, hr, hh, hw, hd, hm⟩ := h
    have e1 : l.waveform % 4 = l.waveform := Nat.mod_eq_of_lt (by omega)
    have e2 : l.modulation_source / 4 % 4 = l.modulation_source / 4 :=
      Nat.mod_eq_of_lt (by omega)
    have e3 : l.reset % 2 = l.reset := Nat.mod_eq_of_lt (by omega)
    have e4 : l.humanize % 2 = l.humanize := Nat.mod_eq_of_lt (by omega)
    unfold LFO.serialize
    rw [e1, e2, e3, e4]
    exact toBytearray_pass (by intro b hb; fin_cases hb <;> omega)
  · intro b0 b1 b2 b3 rest x h
    simp only [LFO.deserialize, Option.map_eq_some'] at h
    obtain ⟨l, hl, hx⟩ := h
    unfold LFO.fromBytes at hl
    cases hA : setValueN 0 3 (b0 / 64 % 4) with
    | none => rw [hA] at hl; exact absurd hl (by simp)
    | some waveform =>
    rw [hA] at hl
    cases hB : setValueN 0 63 (b0 % 64) with
    | none => rw [hB] at hl; exact absurd hl (by simp)
    | some frequency =>
    rw [hB] at hl
    cases hC : setValueN 0 63 (b1 % 64) with
    | none => rw [hC] at hl; exact absurd hl (by simp)
    | some levels0 =>
    rw [hC] at hl
    cases hD : setValueN 0 63 (b2 % 64) with
    | none => rw [hD] at hl; exact absurd hl (by simp)
    | some levels1 =>
    rw [hD] at hl
    cases hE : setValueN 0 15 (b2 / 64 % 4 + b1 / 64 % 4 * 4) with
    | none => rw [hE] at hl; exact absurd hl (by simp)
    | some modulation_source =>
    rw [hE] at hl
    cases hF : setValueN 0 1 (b3 / 128 % 2) with
    | none => rw [hF] at hl; exact absurd hl (by simp)
    | some reset =>
    rw [hF] at hl
    cases hG : setValueN 0 1 (b3 / 64 % 2) with
    | none => rw [hG] at hl; exact absurd hl (by simp)
    | some humanize =>
    rw [hG] at hl
    cases hH : setValueN 0 63 (b3 % 64) with
    | none => rw [hH] at hl; exact absurd hl (by simp)
    | some delay =>
    rw [hH] at hl
    obtain rfl : (⟨levels0, levels1, frequency, reset, humanize, waveform,
      delay, modulation_source⟩ : LFO) = l := Option.some.inj hl
    obtain ⟨rfl, -, -⟩ := setValueN_inv hA
    obtain ⟨rfl, -, -⟩ := setValueN_inv hB
    obtain ⟨rfl, -, -⟩ := setValueN_inv hC
    obtain ⟨rfl, -, -⟩ := setValueN_inv hD
    obtain ⟨rfl, -, -⟩ := setValueN_inv hE
    obtain ⟨rfl, -, -⟩ := setValueN_inv hF
    obtain ⟨rfl, -, -⟩ := setValueN_inv hG
    obtain ⟨rfl, -, -⟩ := setValueN_inv hH
    rw [← hx]
    exact ⟨rfl, rfl, rfl, rfl, rfl, rfl, rfl, rfl, rfl⟩

/-- Witness for C5: the default LFO for the serialize part, and the
serialized default bytes for the deserialize part. -/
theorem lfo_bit_layout_witness :
    (LFO.init.serialize = some [LFO.init.waveform * 64 + LFO.init.frequency,
      LFO.init.modulation_source / 4 * 64 + LFO.init.levels0,
      LFO.init.modulation_source % 4 * 64 + LFO.init.levels1,
      LFO.init.reset * 128 + LFO.init.humanize * 64 + LFO.init.delay]) ∧
    (∀ x : LFO × List Nat,
      LFO.deserialize (0 :: 192 :: 192 :: 0 :: [7]) = some x →
      x.2 = [7] ∧
      x.1.waveform = 0 / 64 % 4 ∧ x.1.frequency = 0 % 64 ∧
      x.1.levels0 = 192 % 64 ∧ x.1.levels1 = 192 % 64 ∧
      x.1.modulation_source = 192 / 64 % 4 + 192 / 64 % 4 * 4 ∧
      x.1.reset = 0 / 128 % 2 ∧ x.1.humanize = 0 / 64 % 2 ∧
      x.1.delay = 0 % 64) :=
  ⟨lfo_bit_layout.1 LFO.init (by decide),
   fun x => lfo_bit_layout.2 0 192 192 0 [7] x⟩

/-! ## SYSEX framing codec (esq1.py lines 790-888)

The file-system read/write wrappers are the external byte source/sink; the
codec itself is embedded over the raw byte list.  The decoder's `_unpacker`
generator reads two raw bytes per logical byte; since every patch
deserialization consumes exactly 102 logical bytes (204 raw bytes) when it
succeeds, drawing the `102 * patch_count` logical bytes up front is
error-for-error equivalent to the interleaved generator, and the footer
`assert` then looks at the next raw byte. -/

/-- The encoder's nibble expansion (lines 877-882): for each payload byte,
append `bytes & 0b00001111` and then `bytes >> 4`. -/
def nibbleExpand : List Nat → List Nat
  | [] => []
  | b :: bs => b % 16 :: b / 16 :: nibbleExpand bs

/-- The decoder's `_unpacker` generator (lines 822-827), drawing `n` logical
bytes: each logical byte is `low + (high << 4)` from two raw bytes; a short
source is a `StopIteration` error.  Returns the logical bytes and the
unconsumed raw remainder. -/
def unpackPairs : Nat → List Nat → Option (List Nat × List Nat)
  | 0, raw => some ([], raw)
  | n + 1, low :: high :: raw =>
    match unpackPairs n raw with
    | none => none
    | some (ls, r) => some ((low + high * 16) :: ls, r)
  | _ + 1, _ => none

/-- The decoder's patch loop (lines 832-836): deserialize `n` patches in
sequence from the logical byte stream. -/
def deserializePatches : Nat → List Nat → Option (List ESQ1Patch × List Nat)
  | 0, logical => some ([], logical)
  | n + 1, logical =>
    match ESQ1Patch.deserialize logical with
    | none => none
    | some (p, rest) =>
      match deserializePatches n rest with
      | none => none
      | some (ps, r) => some (p :: ps, r)

/-- The payload phase of `sysex_to_esq1_patches`: unpack the nibble pairs,
deserialize `patch_count` patches, then `assert next(sysex) == 0xF7`
(line 839) — reading past the end or a non-footer byte is fatal. -/
def sysex_decode_payload (patch_count : Nat) (rest : List Nat) :
    Option (List ESQ1Patch) :=
  match unpackPairs (102 * patch_count) rest with
  | none => none
  | some (logical, rawAfter) =>
    match deserializePatches patch_count logical with
    | none => none
    | some (patches, _) =>
      match rawAfter with
      | [] => none
      | f :: _ => if f = 0xF7 then some patches else none

/-- Function `sysex_to_esq1_patches` (lines 790-841): assert the header bytes
`0xF0 0x0F 0x02`, read the (unused) channel byte, then dispatch on the
dump-type byte: `0x01` decodes one patch, `0x02` decodes forty, anything
else raises `ValueError`. -/
def sysex_to_esq1_patches (sysex : List Nat) : Option (List ESQ1Patch) :=
  match sysex with
  | 0xF0 :: 0x0F :: 0x02 :: _channel :: dump_type :: rest =>
    if dump_type = 0x01 then sysex_decode_payload 1 rest
    else if dump_type = 0x02 then sysex_decode_payload 40 rest
    else none
  | _ => none

/-- The encoder's serialization loop (lines 877-878): serialize each patch
in order and concatenate the byte runs. -/
def serializePatches : List ESQ1Patch → Option (List Nat)
  | [] => some []
  | p :: ps =>
    match p.serialize, serializePatches ps with
    | some bs, some rest => some (bs ++ rest)
    | _, _ => none

/-- Function `esq1_patches_to_sysex` (lines 844-888): header `0xF0 0x0F 0x02`, the
channel byte, a dump-type byte chosen by patch count (one patch → `0x01`;
two or more → `0x02` with the bank normalized to exactly 40 patches by
padding with fresh default patches and keeping only the first 40), the
nibble-expanded payload, and the footer `0xF7`.  Zero patches raise
`ValueError`.  Every emitted byte passes the `bytearray` range check. -/
def sysex_encode_payload (dump_type number_of_patches : Nat)
    (patches : List ESQ1Patch) (channel : Nat) : Option (List Nat) :=
  match serializePatches
      ((patches ++ List.replicate (number_of_patches - patches.length)
        ESQ1Patch.init).take 40) with
  | none => none
  | some payload =>
    toBytearray ([0xF0, 0x0F, 0x02, channel] ++ [dump_type] ++
      nibbleExpand payload ++ [0xF7])

def esq1_patches_to_sysex (patches : List ESQ1Patch) (channel : Nat) :
    Option (List Nat) :=
  if patches.length = 1 then sysex_encode_payload 0x01 1 patches channel
  else if patches.length > 1 then sysex_encode_payload 0x02 40 patches channel
  else none

/-- The patch a decoder reconstructs from a serialized patch: identical
except that the name is the cleaned (upper-cased, exactly-6-character)
name. -/
def ESQ1Patch.cleaned (p : ESQ1Patch) : ESQ1Patch :=
  match clean_name p.name with
  | some nm => { p with name := nm }
  | none => p

/-! ### Framing codec lemmas -/

theorem nibbleExpand_lt {bs : List Nat} (h : ∀ b ∈ bs, b < 256) :
    ∀ x ∈ nibbleExpand bs, x < 256 := by
  induction bs with
  | nil => intro x hx; simp [nibbleExpand] at hx
  | cons b bs ih =>
    intro x hx
    have hb := h b (by simp)
    simp only [nibbleExpand, List.mem_cons] at hx
    rcases hx with rfl | rfl | hx
    · omega
    · omega
    · exact ih (fun y hy => h y (by simp [hy])) x hx

/-- Unpacking exactly `bs.length` pairs from the nibble expansion of `bs`
recovers `bs` and leaves the tail untouched. -/
theorem unpackPairs_nibbleExpand (bs : List Nat) (tail : List Nat) :
    unpackPairs bs.length (nibbleExpand bs ++ tail) = some (bs, tail) := by
  induction bs with
  | nil => rfl
  | cons b bs ih =>
    have hb : b % 16 + b / 16 * 16 = b := by omega
    simp only [nibbleExpand, List.length_cons, List.cons_append,
      unpackPairs, List.append_eq, ih, hb]

/-- A fully in-range patch list serializes to `102 × n` byte-range bytes
which deserialize back, patch by patch, to the cleaned patches. -/
theorem serializePatches_ok (ps : List ESQ1Patch)
    (h : ∀ p ∈ ps, p.InRange) :
    ∃ payload : List Nat, serializePatches ps = some payload ∧
      payload.length = 102 * ps.length ∧ (∀ b ∈ payload, b < 256) ∧
      ∀ tail : List Nat, deserializePatches ps.length (payload ++ tail) =
        some (ps.map ESQ1Patch.cleaned, tail) := by
  induction ps with
  | nil => exact ⟨[], rfl, rfl, by simp, fun tail => rfl⟩
  | cons p ps ih =>
    obtain ⟨nm, be0, be1, be2, be3, bl0, bl1, bl2, bo0, bo1, bo2, bm,
      hnm, hnmlen, he0, he0len, he1, he1len, he2, he2len, he3, he3len,
      hl0, hl0len, hl1, hl1len, hl2, hl2len, ho0, ho0len, ho1, ho1len,
      ho2, ho2len, hm, hmlen, hser, hlen102, hlt, hdes⟩ :=
      ESQ1Patch.serialize_parts p (h p (by simp))
    obtain ⟨payload, hpl, hpllen, hpllt, hpld⟩ :=
      ih (fun q hq => h q (by simp [hq]))
    have hclean : p.cleaned = { p with name := nm } := by
      unfold ESQ1Patch.cleaned
      rw [hnm]
    refine ⟨(nm ++ be0 ++ be1 ++ be2 ++ be3 ++ bl0 ++ bl1 ++ bl2 ++ bo0 ++
      bo1 ++ bo2 ++ bm) ++ payload, ?_, ?_, ?_, ?_⟩
    · simp only [serializePatches, hser, hpl]
    · simp only [List.length_append, List.length_cons]
      omega
    · intro b hb
      rcases List.mem_append.mp hb with hb | hb
      · exact hlt b hb
      · exact hpllt b hb
    · intro tail
      simp only [List.append_assoc] at hdes
      simp only [List.length_cons, List.map_cons, deserializePatches,
        List.append_assoc, hdes (payload ++ tail), hpld tail, hclean]

/-- Padding then truncating (as the encoder does) equals truncating then
padding: the bank normalization keeps the first 40 supplied patches and
pads with defaults when fewer than 40 were supplied. -/
theorem pad_take_comm (ps : List ESQ1Patch) :
    (ps ++ List.replicate (40 - ps.length) ESQ1Patch.init).take 40 =
      ps.take 40 ++ List.replicate (40 - ps.length) ESQ1Patch.init := by
  rw [List.take_append_eq_append_take]
  congr 1
  have h : (List.replicate (40 - ps.length) ESQ1Patch.init).length =
      40 - ps.length := List.length_replicate _ _
  rw [List.take_of_length_le (by rw [h])]

/-- Encoding a single in-range patch: the output is header, channel, dump
type `0x01`, the nibble-expanded 102-byte payload, and the footer. -/
theorem encode_one (p : ESQ1Patch) (ch : Nat) (hin : p.InRange)
    (hch : ch < 256) :
    ∃ payload : List Nat, p.serialize = some payload ∧
      payload.length = 102 ∧ (∀ b ∈ payload, b < 256) ∧
      (∀ tail : List Nat, deserializePatches 1 (payload ++ tail) =
        some ([p.cleaned], tail)) ∧
      esq1_patches_to_sysex [p] ch =
        some ([0xF0, 0x0F, 0x02, ch, 0x01] ++ nibbleExpand payload ++
          [0xF7]) := by
  obtain ⟨payload, hpl, hpllen, hpllt, hpld⟩ :=
    serializePatches_ok [p] (by intro q hq; simp at hq; subst hq; exact hin)
  have hser : p.serialize = some payload := by
    unfold serializePatches at hpl
    cases hps : p.serialize with
    | none =>
      rw [hps] at hpl
      exact absurd hpl (by simp [serializePatches])
    | some bs =>
      rw [hps] at hpl
      simp only [serializePatches, List.append_nil] at hpl
      exact hpl
  have hlen : payload.length = 102 := by simpa using hpllen
  have hdes : ∀ tail : List Nat, deserializePatches 1 (payload ++ tail) =
      some ([p.cleaned], tail) := by
    intro tail
    simpa using hpld tail
  refine ⟨payload, hser, hlen, hpllt, hdes, ?_⟩
  unfold esq1_patches_to_sysex
  rw [if_pos (show ([p] : List ESQ1Patch).length = 1 by simp)]
  unfold sysex_encode_payload
  have hsingle : (([p] ++ List.replicate (1 - ([p] : List ESQ1Patch).length)
      ESQ1Patch.init).take 40) = [p] := by simp
  rw [hsingle, hpl]
  have hbytes : ∀ b ∈ ([0xF0, 0x0F, 0x02, ch] ++ [1] ++
      nibbleExpand payload ++ [0xF7] : List Nat), b < 256 := by
    intro b hb
    rcases List.mem_append.mp hb with hb | hb
    · rcases List.mem_append.mp hb with hb | hb
      · rcases List.mem_append.mp hb with hb | hb
        · fin_cases hb <;> omega
        · fin_cases hb
          omega
      · exact nibbleExpand_lt hpllt b hb
    · fin_cases hb
      omega
  show toBytearray ([0xF0, 0x0F, 0x02, ch] ++ [1] ++ nibbleExpand payload ++
    [0xF7]) = some ([0xF0, 0x0F, 0x02, ch, 0x01] ++ nibbleExpand payload ++
    [0xF7])
  rw [toBytearray_pass hbytes]
  rfl

/-- Encoding two or more in-range patches: the bank is normalized to
exactly 40 patches (first 40 kept, default patches appended when fewer)
and emitted after dump type `0x02`. -/
theorem encode_bank (ps : List ESQ1Patch) (ch : Nat) (h2 : 2 ≤ ps.length)
    (hin : ∀ p ∈ ps, p.InRange) (hch : ch < 256) :
    ∃ payload : List Nat,
      serializePatches (ps.take 40 ++
        List.replicate (40 - ps.length) ESQ1Patch.init) = some payload ∧
      payload.length = 102 * 40 ∧ (∀ b ∈ payload, b < 256) ∧
      (∀ tail : List Nat, deserializePatches 40 (payload ++ tail) =
        some ((ps.take 40 ++ List.replicate (40 - ps.length)
          ESQ1Patch.init).map ESQ1Patch.cleaned, tail)) ∧
      esq1_patches_to_sysex ps ch =
        some ([0xF0, 0x0F, 0x02, ch, 0x02] ++ nibbleExpand payload ++
          [0xF7]) := by
  have hnorm : ∀ p ∈ ps.take 40 ++ List.replicate (40 - ps.length)
      ESQ1Patch.init, p.InRange := by
    intro q hq
    rcases List.mem_append.mp hq with hq | hq
    · exact hin q (List.mem_of_mem_take hq)
    · rw [List.eq_of_mem_replicate hq]
      decide
  obtain ⟨payload, hpl, hpllen, hpllt, hpld⟩ :=
    serializePatches_ok _ hnorm
  have hlen40 : (ps.take 40 ++ List.replicate (40 - ps.length)
      ESQ1Patch.init).length = 40 := by
    simp only [List.length_append, List.length_take, List.length_replicate]
    omega
  have hlen : payload.length = 102 * 40 := by rw [hpllen, hlen40]
  have hdes : ∀ tail : List Nat, deserializePatches 40 (payload ++ tail) =
      some ((ps.take 40 ++ List.replicate (40 - ps.length)
        ESQ1Patch.init).map ESQ1Patch.cleaned, tail) := by
    intro tail
    have := hpld tail
    rwa [hlen40] at this
  refine ⟨payload, hpl, hlen, hpllt, hdes, ?_⟩
  unfold esq1_patches_to_sysex
  have hne1 : ¬ (ps.length = 1) := by omega
  have hgt : ps.length > 1 := by omega
  rw [if_neg hne1, if_pos hgt]
  unfold sysex_encode_payload
  rw [pad_take_comm, hpl]
  have hbytes : ∀ b ∈ ([0xF0, 0x0F, 0x02, ch] ++ [2] ++
      nibbleExpand payload ++ [0xF7] : List Nat), b < 256 := by
    intro b hb
    rcases List.mem_append.mp hb with hb | hb
    · rcases List.mem_append.mp hb with hb | hb
      · rcases List.mem_append.mp hb with hb | hb
        · fin_cases hb <;> omega
        · fin_cases hb
          omega
      · exact nibbleExpand_lt hpllt b hb
    · fin_cases hb
      omega
  show toBytearray ([0xF0, 0x0F, 0x02, ch] ++ [2] ++ nibbleExpand payload ++
    [0xF7]) = some ([0xF0, 0x0F, 0x02, ch, 0x02] ++ nibbleExpand payload ++
    [0xF7])
  rw [toBytearray_pass hbytes]
  rfl

/-- Decoding a well-formed single dump: header, channel, dump type `0x01`,
102 nibble-expanded payload bytes, footer. -/
theorem decode_single (payload : List Nat) (ch : Nat)
    (hlen : payload.length = 102) (ps : List ESQ1Patch)
    (hdes : ∀ tail : List Nat,
      deserializePatches 1 (payload ++ tail) = some (ps, tail)) :
    sysex_to_esq1_patches ([0xF0, 0x0F, 0x02, ch, 0x01] ++
      nibbleExpand payload ++ [0xF7]) = some ps := by
  have hd : deserializePatches 1 payload = some (ps, []) := by
    have := hdes []
    rwa [List.append_nil] at this
  have h102 : (102 : Nat) * 1 = payload.length := by omega
  simp only [List.cons_append, List.nil_append, sysex_to_esq1_patches,
    List.append_assoc]
  norm_num
  unfold sysex_decode_payload
  rw [h102, unpackPairs_nibbleExpand]
  simp only [hd]
  simp

/-- Decoding a well-formed bank dump: header, channel, dump type `0x02`,
40 × 102 nibble-expanded payload bytes, footer. -/
theorem decode_bank (payload : List Nat) (ch : Nat)
    (hlen : payload.length = 102 * 40) (ps : List ESQ1Patch)
    (hdes : ∀ tail : List Nat,
      deserializePatches 40 (payload ++ tail) = some (ps, tail)) :
    sysex_to_esq1_patches ([0xF0, 0x0F, 0x02, ch, 0x02] ++
      nibbleExpand payload ++ [0xF7]) = some ps := by
  have hd : deserializePatches 40 payload = some (ps, []) := by
    have := hdes []
    rwa [List.append_nil] at this
  have h102 : (102 : Nat) * 40 = payload.length := by omega
  simp only [List.cons_append, List.nil_append, sysex_to_esq1_patches,
    List.append_assoc]
  norm_num
  unfold sysex_decode_payload
  rw [h102, unpackPairs_nibbleExpand]
  simp only [hd]
  simp

/-! ## C6, C7, C8 -/

/-- C6: the encoder emits `0xF0 0x0F 0x02`, the channel byte, dump type
`0x01` for exactly one patch or `0x02` for two or more (normalizing the
bank to exactly 40 patches: first 40 kept, default patches appended when
fewer), then each payload byte as its low nibble followed by its high
nibble, then `0xF7`; it fails on an empty patch list. -/
theorem sysex_encode_format :
    (∀ ch : Nat, esq1_patches_to_sysex [] ch = none) ∧
    (∀ (p : ESQ1Patch) (ch : Nat), p.InRange → ch < 256 →
      ∃ bs : List Nat, p.serialize = some bs ∧
        esq1_patches_to_sysex [p] ch =
          some ([0xF0, 0x0F, 0x02, ch, 0x01] ++ nibbleExpand bs ++
            [0xF7])) ∧
    (∀ (ps : List ESQ1Patch) (ch : Nat), 2 ≤ ps.length →
      (∀ p ∈ ps, p.InRange) → ch < 256 →
      ∃ payload : List Nat,
        serializePatches (ps.take 40 ++
          List.replicate (40 - ps.length) ESQ1Patch.init) = some payload ∧
        esq1_patches_to_sysex ps ch =
          some ([0xF0, 0x0F, 0x02, ch, 0x02] ++ nibbleExpand payload ++
            [0xF7])) ∧
    (∀ bs : List Nat,
      nibbleExpand bs = (bs.map (fun b => [b % 16, b / 16])).flatten) := by
  refine ⟨fun ch => rfl, ?_, ?_, ?_⟩
  · intro p ch hin hch
    obtain ⟨payload, hser, -, -, -, henc⟩ := encode_one p ch hin hch
    exact ⟨payload, hser, henc⟩
  · intro ps ch h2 hin hch
    obtain ⟨payload, hpl, -, -, -, henc⟩ := encode_bank ps ch h2 hin hch
    exact ⟨payload, hpl, henc⟩
  · intro bs
    induction bs with
    | nil => rfl
    | cons b bs ih => simp [nibbleExpand, ih]

/-- Witness for C6: the empty list, a single default patch, a two-patch
list, and a concrete byte run. -/
theorem sysex_encode_format_witness :
    esq1_patches_to_sysex [] 0 = none ∧
    (∃ bs : List Nat, ESQ1Patch.init.serialize = some bs ∧
      esq1_patches_to_sysex [ESQ1Patch.init] 0 =
        some ([0xF0, 0x0F, 0x02, 0, 0x01] ++ nibbleExpand bs ++ [0xF7])) ∧
    (∃ payload : List Nat,
      serializePatches (([ESQ1Patch.init, ESQ1Patch.init] : List ESQ1Patch).take 40 ++
        List.replicate (40 - ([ESQ1Patch.init, ESQ1Patch.init] : List ESQ1Patch).length)
          ESQ1Patch.init) = some payload ∧
      esq1_patches_to_sysex [ESQ1Patch.init, ESQ1Patch.init] 0 =
        some ([0xF0, 0x0F, 0x02, 0, 0x02] ++ nibbleExpand payload ++
          [0xF7])) ∧
    nibbleExpand [0xAB] = (([0xAB] : List Nat).map
      (fun b => [b % 16, b / 16])).flatten :=
  ⟨sysex_encode_format.1 0,
   sysex_encode_format.2.1 ESQ1Patch.init 0 (by decide) (by decide),
   sysex_encode_format.2.2.1 [ESQ1Patch.init, ESQ1Patch.init] 0 (by decide)
     (by decide) (by decide),
   sysex_encode_format.2.2.2 [0xAB]⟩

/-- C7: encode-then-decode round-trips — a single in-range patch decodes
back to a one-element list whose patch equals the original except for the
cleaned (upper-cased, exactly-6-character) name; five in-range patches
decode back to a 40-patch bank whose entries 6..40 are all freshly
constructed default patches. -/
theorem sysex_encode_decode_roundtrip :
    (∀ (p : ESQ1Patch) (ch : Nat), p.InRange → ch < 256 →
      ∃ (out : List Nat) (nm : List Nat),
        esq1_patches_to_sysex [p] ch = some out ∧
        clean_name p.name = some nm ∧ nm.length = 6 ∧
        sysex_to_esq1_patches out = some [{ p with name := nm }]) ∧
    (∀ (p1 p2 p3 p4 p5 : ESQ1Patch) (ch : Nat),
      p1.InRange → p2.InRange → p3.InRange → p4.InRange → p5.InRange →
      ch < 256 →
      ∃ (out : List Nat) (qs : List ESQ1Patch),
        esq1_patches_to_sysex [p1, p2, p3, p4, p5] ch = some out ∧
        sysex_to_esq1_patches out = some qs ∧
        qs.length = 40 ∧ qs.drop 5 = List.replicate 35 ESQ1Patch.init) := by
  constructor
  · intro p ch hin hch
    obtain ⟨payload, hser, hlen, -, hdes, henc⟩ := encode_one p ch hin hch
    obtain ⟨hname, -, -, -, -, -, -, -, -, -, -, -⟩ := hin
    obtain ⟨c0, c1, c2, c3, c4, c5, hnm, -⟩ := clean_name_six hname
    have hclean : p.cleaned = { p with name := [c0, c1, c2, c3, c4, c5] } := by
      unfold ESQ1Patch.cleaned
      rw [hnm]
    refine ⟨_, [c0, c1, c2, c3, c4, c5], henc, hnm, rfl, ?_⟩
    have := decode_single payload ch hlen [p.cleaned] hdes
    rwa [hclean] at this
  · intro p1 p2 p3 p4 p5 ch h1 h2 h3 h4 h5 hch
    obtain ⟨payload, hpl, hlen, -, hdes, henc⟩ :=
      encode_bank [p1, p2, p3, p4, p5] ch (by simp)
        (by intro q hq; fin_cases hq <;> assumption) hch
    have hcini : ESQ1Patch.cleaned ESQ1Patch.init = ESQ1Patch.init := by
      decide
    refine ⟨_, _, henc, decode_bank payload ch hlen _ hdes, ?_, ?_⟩
    · simp
    · have htake : ([p1, p2, p3, p4, p5] : List ESQ1Patch).take 40 =
        [p1, p2, p3, p4, p5] := rfl
      rw [htake]
      simp only [List.length_cons, List.length_nil, List.map_append,
        List.map_cons, List.map_nil, List.map_replicate, hcini,
        List.cons_append, List.nil_append]
      simp [List.drop]

/-- Witness for C7: default patches throughout. -/
theorem sysex_encode_decode_roundtrip_witness :
    (∃ (out : List Nat) (nm : List Nat),
      esq1_patches_to_sysex [ESQ1Patch.init] 0 = some out ∧
      clean_name ESQ1Patch.init.name = some nm ∧ nm.length = 6 ∧
      sysex_to_esq1_patches out =
        some [{ ESQ1Patch.init with name := nm }]) ∧
    (∃ (out : List Nat) (qs : List ESQ1Patch),
      esq1_patches_to_sysex [ESQ1Patch.init, ESQ1Patch.init, ESQ1Patch.init,
        ESQ1Patch.init, ESQ1Patch.init] 0 = some out ∧
      sysex_to_esq1_patches out = some qs ∧
      qs.length = 40 ∧ qs.drop 5 = List.replicate 35 ESQ1Patch.init) :=
  ⟨sysex_encode_decode_roundtrip.1 ESQ1Patch.init 0 (by decide) (by decide),
   sysex_encode_decode_roundtrip.2 ESQ1Patch.init ESQ1Patch.init
     ESQ1Patch.init ESQ1Patch.init ESQ1Patch.init 0 (by decide) (by decide)
     (by decide) (by decide) (by decide) (by decide)⟩

/-- C8: decoding fails (with no partial result) on an unrecognized
dump-type byte, and on a well-formed single dump whose byte after the
payload is missing or is not the footer `0xF7`. -/
theorem sysex_decode_errors :
    (∀ (ch dt : Nat) (rest : List Nat), dt ≠ 0x01 → dt ≠ 0x02 →
      sysex_to_esq1_patches (0xF0 :: 0x0F :: 0x02 :: ch :: dt :: rest) =
        none) ∧
    (∀ (p : ESQ1Patch) (ch : Nat) (bs tail : List Nat), p.InRange →
      p.serialize = some bs → tail.head? ≠ some 0xF7 →
      sysex_to_esq1_patches ([0xF0, 0x0F, 0x02, ch, 0x01] ++
        nibbleExpand bs ++ tail) = none) := by
  constructor
  · intro ch dt rest hdt1 hdt2
    simp only [sysex_to_esq1_patches]
    rw [if_neg hdt1, if_neg hdt2]
  · intro p ch bs tail hin hbs hfoot
    obtain ⟨nm, be0, be1, be2, be3, bl0, bl1, bl2, bo0, bo1, bo2, bm,
      hnm, hnmlen, he0, he0len, he1, he1len, he2, he2len, he3, he3len,
      hl0, hl0len, hl1, hl1len, hl2, hl2len, ho0, ho0len, ho1, ho1len,
      ho2, ho2len, hm, hmlen, hser, hlen102, hlt, hdes⟩ :=
      ESQ1Patch.serialize_parts p hin
    rw [hser] at hbs
    obtain rfl : nm ++ be0 ++ be1 ++ be2 ++ be3 ++ bl0 ++ bl1 ++ bl2 ++
        bo0 ++ bo1 ++ bo2 ++ bm = bs := Option.some.inj hbs
    have hd1 : ESQ1Patch.deserialize (nm ++ be0 ++ be1 ++ be2 ++ be3 ++
        bl0 ++ bl1 ++ bl2 ++ bo0 ++ bo1 ++ bo2 ++ bm) =
        some ({ p with name := nm }, []) := by
      have := hdes []
      rwa [List.append_nil] at this
    have hdp : deserializePatches 1 (nm ++ be0 ++ be1 ++ be2 ++ be3 ++
        bl0 ++ bl1 ++ bl2 ++ bo0 ++ bo1 ++ bo2 ++ bm) =
        some ([{ p with name := nm }], []) := by
      unfold deserializePatches
      rw [hd1]
      rfl
    have h102 : (102 : Nat) * 1 = (nm ++ be0 ++ be1 ++ be2 ++ be3 ++ bl0 ++
        bl1 ++ bl2 ++ bo0 ++ bo1 ++ bo2 ++ bm).length := by omega
    simp only [List.cons_append, List.nil_append, sysex_to_esq1_patches,
      List.append_assoc]
    norm_num
    unfold sysex_decode_payload
    simp only [← List.append_assoc]
    rw [h102, unpackPairs_nibbleExpand]
    simp only [hdp]
    rcases tail with _ | ⟨f, t⟩
    · rfl
    · have hf : f ≠ 0xF7 := by
        intro hcontra
        exact hfoot (by rw [hcontra]; rfl)
      simp [hf]

/-- Witness for C8: dump type `0x03`, and the serialized default patch
followed by a byte that is not the footer. -/
theorem sysex_decode_errors_witness :
    sysex_to_esq1_patches (0xF0 :: 0x0F :: 0x02 :: 0 :: 0x03 :: []) =
      none ∧
    sysex_to_esq1_patches ([0xF0, 0x0F, 0x02, 0, 0x01] ++
      nibbleExpand ([32, 32, 32, 32, 32, 32] ++ List.replicate 40 0 ++
        [0, 192, 192, 0] ++ [0, 192, 192, 0] ++ [0, 192, 192, 0] ++
        [36, 0, 255, 0, 0, 0, 0, 255, 0, 0] ++
        [36, 0, 255, 0, 0, 0, 0, 255, 0, 0] ++
        [36, 0, 255, 0, 0, 0, 0, 255, 0, 0] ++
        [0, 0, 0, 255, 0, 0, 0, 0, 0, 0, 0, 0, 143, 0]) ++ [0]) = none :=
  ⟨sysex_decode_errors.1 0 3 [] (by decide) (by decide),
   sysex_decode_errors.2 ESQ1Patch.init 0 _ [0] (by decide) (by decide)
     (by decide)⟩

/-! ## C10: the encoder does not mutate its input

Python list objects are mutable and aliased through names.  To state the
frame property we embed the relevant aliasing structure explicitly: a store
maps references (list-object identities) to patch lists.  The caller's list
lives at `argRef`; the statement `patches = list(patches)` (line 858) binds
the local name to a *fresh* object at `freshRef` holding a copy, after which
`patches += [...]` (line 874) mutates only that fresh object, and
serialization (lines 877-882) only reads it. -/

/-- Function `esq1_patches_to_sysex` modelled over an explicit store of list objects.
Returns the final store and the encoder's result (which is the same
computation as the pure `esq1_patches_to_sysex` over the local copy). -/
def esq1_patches_to_sysex_state (h : Nat → List ESQ1Patch)
    (argRef freshRef : Nat) (channel : Nat) :
    (Nat → List ESQ1Patch) × Option (List Nat) :=
  let h1 := Function.update h freshRef (h argRef)
  if (h1 freshRef).length = 1 then
    let h2 := Function.update h1 freshRef
      (h1 freshRef ++ List.replicate (1 - (h1 freshRef).length)
        ESQ1Patch.init)
    (h2, match serializePatches ((h2 freshRef).take 40) with
      | none => none
      | some payload =>
        toBytearray ([0xF0, 0x0F, 0x02, channel] ++ [0x01] ++
          nibbleExpand payload ++ [0xF7]))
  else if (h1 freshRef).length > 1 then
    let h2 := Function.update h1 freshRef
      (h1 freshRef ++ List.replicate (40 - (h1 freshRef).length)
        ESQ1Patch.init)
    (h2, match serializePatches ((h2 freshRef).take 40) with
      | none => none
      | some payload =>
        toBytearray ([0xF0, 0x0F, 0x02, channel] ++ [0x02] ++
          nibbleExpand payload ++ [0xF7]))
  else (h1, none)

/-- C10: after encoding, the caller's list object is unchanged — padding
and truncation happen on the private copy — and the result is exactly the
pure encoder's output on the caller's list. -/
theorem sysex_encode_preserves_input (h : Nat → List ESQ1Patch)
    (argRef freshRef channel : Nat) (hne : argRef ≠ freshRef) :
    (esq1_patches_to_sysex_state h argRef freshRef channel).1 argRef =
      h argRef ∧
    (esq1_patches_to_sysex_state h argRef freshRef channel).2 =
      esq1_patches_to_sysex (h argRef) channel := by
  unfold esq1_patches_to_sysex_state esq1_patches_to_sysex
    sysex_encode_payload
  simp only [Function.update_same, Function.update_noteq hne]
  by_cases h1 : (h argRef).length = 1
  · rw [if_pos h1, if_pos h1]
    constructor
    · simp [Function.update_noteq hne]
    · rfl
  · rw [if_neg h1, if_neg h1]
    by_cases h2 : (h argRef).length > 1
    · rw [if_pos h2, if_pos h2]
      constructor
      · simp [Function.update_noteq hne]
      · rfl
    · rw [if_neg h2, if_neg h2]
      exact ⟨Function.update_noteq hne _ _, rfl⟩

/-- Witness for C10 at a concrete store holding one single-patch list. -/
theorem sysex_encode_preserves_input_witness :
    (esq1_patches_to_sysex_state (fun _ => [ESQ1Patch.init]) 0 1 0).1 0 =
      (fun _ => [ESQ1Patch.init]) 0 ∧
    (esq1_patches_to_sysex_state (fun _ => [ESQ1Patch.init]) 0 1 0).2 =
      esq1_patches_to_sysex ((fun _ => [ESQ1Patch.init]) 0) 0 :=
  sysex_encode_preserves_input (fun _ => [ESQ1Patch.init]) 0 1 0
    (by decide)
